import Mathlib

/-!
A shallow embedding of `lambdaurl.go` (Lambda Function URLs, buffered mode)

The Go package turns an `http.Handler` into a Lambda Function URL handler
(buffered response mode).  This file embeds

* the response sink `httpResponseWriter` with its three methods,
* the context accessor `RequestFromContext`,
* the translator `Wrap`,

together with the parts of the Go standard library that `Wrap` calls
(`http.NewRequestWithContext`, `url.Parse`, `http.Header.Add`,
`base64.NewDecoder`, `strings.Builder`, `strings.Join`, `context.WithValue`).

Conventions.  A Go `string` that is used as text (header names and values,
method, URL pieces) is a Lean `String`; a Go `[]byte` and the two body
strings are lists of bytes.  A Go map is a list of entries with distinct
keys: the order of the list is the order in which this run of the program
enumerates the map, which Go leaves unspecified, so statements are made for
every order.  A nil map or slice is not told apart from an empty one.
-/

namespace Lambdaurl

/-! ## Bytes and Go maps -/

/-- One byte. -/
abbrev Byte := Fin 256

/-- Replace the value stored under `k` in an entry list, or append a new entry. -/
def assocSet {V : Type} (k : String) (v : V) : List (String × V) → List (String × V)
  | [] => [(k, v)]
  | e :: t => if e.1 = k then (k, v) :: t else e :: assocSet k v t

/-- Drop the entry stored under `k` from an entry list. -/
def assocErase {V : Type} (k : String) : List (String × V) → List (String × V)
  | [] => []
  | e :: t => if e.1 = k then t else e :: assocErase k t

/-- Look up the value stored under `k` in an entry list. -/
def assocGet {V : Type} (k : String) : List (String × V) → Option V
  | [] => none
  | e :: t => if e.1 = k then some e.2 else assocGet k t

theorem keys_assocSet {V : Type} (k : String) (v : V) (l : List (String × V)) :
    (assocSet k v l).map Prod.fst =
      if k ∈ l.map Prod.fst then l.map Prod.fst else l.map Prod.fst ++ [k] := by
  induction l with
  | nil => simp [assocSet]
  | cons e t ih =>
    by_cases h : e.1 = k
    · simp [assocSet, h]
    · have h2 : ¬ k = e.1 := fun h3 => h h3.symm
      simp only [assocSet, h, if_false, List.map_cons, ih, List.mem_cons, h2, false_or]
      split <;> simp

theorem nodup_assocSet {V : Type} (k : String) (v : V) (l : List (String × V))
    (h : (l.map Prod.fst).Nodup) : ((assocSet k v l).map Prod.fst).Nodup := by
  rw [keys_assocSet]
  split
  · exact h
  · rename_i hk
    rw [List.nodup_append]
    refine ⟨h, List.nodup_singleton k, ?_⟩
    intro a ha hb
    simp only [List.mem_singleton] at hb
    exact hk (hb ▸ ha)

theorem keys_assocErase_sublist {V : Type} (k : String) (l : List (String × V)) :
    ((assocErase k l).map Prod.fst).Sublist (l.map Prod.fst) := by
  induction l with
  | nil => simp [assocErase]
  | cons e t ih =>
    by_cases h : e.1 = k
    · simp [assocErase, h]
    · simp only [assocErase, h, if_false, List.map_cons]
      exact ih.cons₂ _

/-- A Go `map[string]V`: its entries, in the order this run enumerates them. -/
structure GoMap (V : Type) where
  /-- The entries of the map. -/
  entries : List (String × V)
  /-- A map holds every key once. -/
  nodup : (entries.map Prod.fst).Nodup
  deriving DecidableEq

namespace GoMap

/-- The map `make(map[string]V)`. -/
def empty {V : Type} : GoMap V := ⟨[], List.nodup_nil⟩

/-- The keys of the map. -/
def keys {V : Type} (m : GoMap V) : List String := m.entries.map Prod.fst

/-- Go `v, ok := m[k]`. -/
def get? {V : Type} (m : GoMap V) (k : String) : Option V := assocGet k m.entries

/-- Go `m[k] = v`. -/
def set {V : Type} (m : GoMap V) (k : String) (v : V) : GoMap V :=
  ⟨assocSet k v m.entries, nodup_assocSet k v m.entries m.nodup⟩

/-- Go `delete(m, k)`. -/
def delete {V : Type} (m : GoMap V) (k : String) : GoMap V :=
  ⟨assocErase k m.entries, m.nodup.sublist (keys_assocErase_sublist k m.entries)⟩

end GoMap

/-! ## Errors -/

/-- The error values of the standard library that reach this package. -/
inductive GoError where
  /-- The error `net/http: invalid method %q` of `http.NewRequestWithContext`. -/
  | invalidMethod (method : String)
  /-- A `*url.Error` of `url.Parse`: the URL that was parsed and, in short, what
  was wrong (the message of Go without the text it quotes). -/
  | urlParse (url : String) (what : String)
  /-- A `base64.CorruptInputError`. -/
  | corruptInput
  /-- The error `io.ErrUnexpectedEOF`. -/
  | unexpectedEOF
  /-- Any other error, such as one returned by an `io.Writer`. -/
  | other (msg : String)
  deriving DecidableEq, Repr

/-- RequestConvertionError is returned when the conversion of the Lambda
request to an http.Request fails. -/
structure RequestConvertionError where
  /-- The underlying error. -/
  Cause : GoError
  deriving DecidableEq, Repr

/-- The method `RequestConvertionError.Error`. -/
def RequestConvertionError.Error (_e : RequestConvertionError) : String :=
  "failed to convert Lambda request to http.Request"

/-- The method `RequestConvertionError.Unwrap`. -/
def RequestConvertionError.Unwrap (e : RequestConvertionError) : GoError := e.Cause

/-- WriteResponseError is returned when writing the response fails. -/
structure WriteResponseError where
  /-- The underlying error. -/
  Cause : GoError
  deriving DecidableEq, Repr

/-- The method `WriteResponseError.Error`. -/
def WriteResponseError.Error (_e : WriteResponseError) : String :=
  "failed to write response"

/-- The method `WriteResponseError.Unwrap`. -/
def WriteResponseError.Unwrap (e : WriteResponseError) : GoError := e.Cause

/-! ## `http.Header` -/

/-- The punctuation that may occur in an HTTP token, next to letters and digits. -/
def tokenPunctuation : List Char := "!#$%&'*+-.^_\x60|~".toList

/-- The token table of `httpguts.IsTokenRune` and `textproto.validHeaderFieldByte`. -/
def isTokenChar (c : Char) : Bool :=
  c.isAlphanum || tokenPunctuation.contains c

/-- The second loop of `textproto.canonicalMIMEHeaderKey`: upper case for the
first letter and for every letter after a dash, lower case for the others. -/
def canonicalLetters : Bool → List Char → List Char
  | _, [] => []
  | upper, c :: t =>
    let c1 := if upper && c.isLower then c.toUpper
              else if !upper && c.isUpper then c.toLower else c
    c1 :: canonicalLetters (c1 == '-') t

/-- Go `textproto.CanonicalMIMEHeaderKey`: a key with a byte that is not a
token byte is returned unchanged. -/
def CanonicalMIMEHeaderKey (s : String) : String :=
  if s.toList.all isTokenChar then String.mk (canonicalLetters true s.toList) else s

/-- Go `http.Header`, a `map[string][]string`. -/
abbrev Header := GoMap (List String)

/-- Go `http.Header.Add`. -/
def Header.Add (h : Header) (key value : String) : Header :=
  let k := CanonicalMIMEHeaderKey key
  h.set k ((h.get? k).getD [] ++ [value])

/-- Go `http.Header.Set`. -/
def Header.Set (h : Header) (key value : String) : Header :=
  h.set (CanonicalMIMEHeaderKey key) [value]

/-- Go `http.Header.Del`. -/
def Header.Del (h : Header) (key : String) : Header :=
  h.delete (CanonicalMIMEHeaderKey key)

/-- Go `http.Header.Values`. -/
def Header.Values (h : Header) (key : String) : List String :=
  (h.get? (CanonicalMIMEHeaderKey key)).getD []

/-! ## The response sink -/

/-- An `io.Writer` whose state is a `σ`: `Write` returns the byte count, the
error (if any) and the new state. -/
structure GoWriter (σ : Type) where
  /-- The method `Write`. -/
  Write : σ → List Byte → (Nat × Option GoError) × σ

/-- Go `strings.Builder`: `Write` appends and always returns `len(p), nil`. -/
def stringsBuilder : GoWriter (List Byte) where
  Write := fun buf p => ((p.length, none), buf ++ p)

/-- The struct `httpResponseWriter`.  The field `writer` holds the state of the
writer that the Go field points to. -/
structure httpResponseWriter (σ : Type) where
  /-- The header mapping. -/
  header : Header
  /-- The status code. -/
  code : Int
  /-- The underlying writer. -/
  writer : σ

/-- Go `http.StatusOK`. -/
def StatusOK : Int := 200

/-- The function `newHTTPResponseWriter`. -/
def newHTTPResponseWriter {σ : Type} (w : σ) : httpResponseWriter σ :=
  { header := GoMap.empty, code := StatusOK, writer := w }

namespace httpResponseWriter

/-- The method `Header`: the mapping itself, which the caller may change. -/
def Header {σ : Type} (w : httpResponseWriter σ) : Lambdaurl.Header := w.header

/-- A change the caller makes to the mapping that `Header` returned. -/
def mutateHeader {σ : Type} (w : httpResponseWriter σ)
    (f : Lambdaurl.Header → Lambdaurl.Header) : httpResponseWriter σ :=
  { w with header := f w.Header }

/-- The method `Write`. -/
def Write {σ : Type} (W : GoWriter σ) (w : httpResponseWriter σ) (p : List Byte) :
    (Nat × Option WriteResponseError) × httpResponseWriter σ :=
  match W.Write w.writer p with
  | ((b, some err), st) => ((b, some { Cause := err }), { w with writer := st })
  | ((b, none), st) => ((b, none), { w with writer := st })

/-- The method `WriteHeader`. -/
def WriteHeader {σ : Type} (w : httpResponseWriter σ) (statusCode : Int) :
    httpResponseWriter σ :=
  { w with code := statusCode }

end httpResponseWriter

/-! ## Handlers -/

/-- What a handler does with the sink it is given: a tree of calls of the
three methods of `http.ResponseWriter`.  After `Write` the handler goes on
with the two results of the call. -/
inductive HandlerProg where
  /-- The handler returns. -/
  | done : HandlerProg
  /-- A call of `Header()` and a change of the mapping it returned. -/
  | header (f : Header → Header) (next : HandlerProg) : HandlerProg
  /-- A call of `Write(p)`. -/
  | write (p : List Byte) (next : Nat → Option WriteResponseError → HandlerProg) :
      HandlerProg
  /-- A call of `WriteHeader(statusCode)`. -/
  | writeHeader (statusCode : Int) (next : HandlerProg) : HandlerProg

/-- One call on the sink. -/
inductive SinkOp where
  /-- A change of the header mapping. -/
  | header (f : Header → Header) : SinkOp
  /-- A call of `Write`. -/
  | write (p : List Byte) : SinkOp
  /-- A call of `WriteHeader`. -/
  | writeHeader (statusCode : Int) : SinkOp

/-- The effect of one call on the sink. -/
def SinkOp.apply {σ : Type} (W : GoWriter σ) (w : httpResponseWriter σ) :
    SinkOp → httpResponseWriter σ
  | .header f => w.mutateHeader f
  | .write p => (w.Write W p).2
  | .writeHeader c => w.WriteHeader c

/-- The effect of a sequence of calls on the sink. -/
def runOps {σ : Type} (W : GoWriter σ) (ops : List SinkOp) (w : httpResponseWriter σ) :
    httpResponseWriter σ :=
  ops.foldl (SinkOp.apply W) w

/-- Whether the call is a `WriteHeader`. -/
def SinkOp.isWriteHeader : SinkOp → Bool
  | .writeHeader _ => true
  | _ => false

/-- Run a handler on a sink: the sink it leaves behind. -/
def HandlerProg.run {σ : Type} (W : GoWriter σ) :
    HandlerProg → httpResponseWriter σ → httpResponseWriter σ
  | .done, w => w
  | .header f next, w => next.run W (w.mutateHeader f)
  | .write p next, w =>
      (next (w.Write W p).1.1 (w.Write W p).1.2).run W (w.Write W p).2
  | .writeHeader c next, w => next.run W (w.WriteHeader c)

/-- The calls a handler makes when it is run on a sink, in order. -/
def HandlerProg.calls {σ : Type} (W : GoWriter σ) :
    HandlerProg → httpResponseWriter σ → List SinkOp
  | .done, _ => []
  | .header f next, w => .header f :: next.calls W (w.mutateHeader f)
  | .write p next, w =>
      .write p :: (next (w.Write W p).1.1 (w.Write W p).1.2).calls W (w.Write W p).2
  | .writeHeader c next, w => .writeHeader c :: next.calls W (w.WriteHeader c)

/-! ## The inbound event and the context -/

/-- The struct `events.LambdaFunctionURLRequestContextHTTPDescription`. -/
structure LambdaFunctionURLRequestContextHTTPDescription where
  /-- The field `method`. -/
  Method : String
  /-- The field `path`. -/
  Path : String
  /-- The field `protocol`. -/
  Protocol : String
  /-- The field `sourceIp`. -/
  SourceIP : String
  /-- The field `userAgent`. -/
  UserAgent : String
  deriving DecidableEq

/-- The struct `events.LambdaFunctionURLRequestContext` (without the authorizer). -/
structure LambdaFunctionURLRequestContext where
  /-- The field `accountId`. -/
  AccountID : String
  /-- The field `requestId`. -/
  RequestID : String
  /-- The field `apiId`. -/
  APIID : String
  /-- The field `domainName`. -/
  DomainName : String
  /-- The field `domainPrefix`. -/
  DomainPrefix : String
  /-- The field `time`. -/
  Time : String
  /-- The field `timeEpoch`. -/
  TimeEpoch : Int
  /-- The field `http`. -/
  HTTP : LambdaFunctionURLRequestContextHTTPDescription
  deriving DecidableEq

/-- The struct `events.LambdaFunctionURLRequest`. -/
structure LambdaFunctionURLRequest where
  /-- The field `version`. -/
  Version : String
  /-- The field `rawPath`. -/
  RawPath : String
  /-- The field `rawQueryString`. -/
  RawQueryString : String
  /-- The field `cookies`. -/
  Cookies : List String
  /-- The field `headers`. -/
  Headers : GoMap String
  /-- The field `queryStringParameters`. -/
  QueryStringParameters : GoMap String
  /-- The field `requestContext`. -/
  RequestContext : LambdaFunctionURLRequestContext
  /-- The field `body`. -/
  Body : List Byte
  /-- The field `isBase64Encoded`. -/
  IsBase64Encoded : Bool
  deriving DecidableEq

/-- The struct `events.LambdaFunctionURLResponse`. -/
structure LambdaFunctionURLResponse where
  /-- The field `statusCode`. -/
  StatusCode : Int
  /-- The field `headers`. -/
  Headers : GoMap String
  /-- The field `body`. -/
  Body : List Byte
  /-- The field `isBase64Encoded`. -/
  IsBase64Encoded : Bool
  /-- The field `cookies`. -/
  Cookies : List String
  deriving DecidableEq

/-- The zero value `events.LambdaFunctionURLResponse{}`. -/
def LambdaFunctionURLResponse.zero : LambdaFunctionURLResponse :=
  { StatusCode := 0, Headers := GoMap.empty, Body := [], IsBase64Encoded := false,
    Cookies := [] }

/-- The keys of a `context.Context`: the private `requestContextKey{}` of this
package and the keys of everybody else. -/
inductive ContextKey where
  /-- The value `requestContextKey{}`. -/
  | requestContextKey : ContextKey
  /-- A key of another package. -/
  | foreign (name : String) : ContextKey
  deriving DecidableEq

/-- The values a context holds, with their dynamic type. -/
inductive ContextValue where
  /-- A value of type `events.LambdaFunctionURLRequest`. -/
  | requestValue (r : LambdaFunctionURLRequest) : ContextValue
  /-- A value of type `*events.LambdaFunctionURLRequest`, pointing at `r`. -/
  | requestPointer (r : LambdaFunctionURLRequest) : ContextValue
  /-- A value of any other type. -/
  | foreign (v : String) : ContextValue
  deriving DecidableEq

/-- Go `context.Context`, as far as `Value` goes: the bindings made by
`context.WithValue`, the innermost first. -/
abbrev Context := List (ContextKey × ContextValue)

/-- Go `context.WithValue`. -/
def Context.WithValue (ctx : Context) (key : ContextKey) (val : ContextValue) : Context :=
  (key, val) :: ctx

/-- Go `ctx.Value(key)`: the innermost binding of the key, `none` for nil. -/
def Context.Value : Context → ContextKey → Option ContextValue
  | [], _ => none
  | (k, v) :: parent, key => if k = key then some v else Context.Value parent key

/-- RequestFromContext returns the *events.LambdaFunctionURLRequest from a
context: the type assertion `.(*events.LambdaFunctionURLRequest)` holds for a
pointer only. -/
def RequestFromContext (ctx : Context) : Option LambdaFunctionURLRequest × Bool :=
  match ctx.Value ContextKey.requestContextKey with
  | some (ContextValue.requestPointer r) => (some r, true)
  | _ => (none, false)

/-! ## `net/url`: what makes `url.Parse` fail

The components of a parsed URL are kept in the escaped form in which they
occur in the URL string (Go stores host, path and fragment unescaped):
`url.Parse` is followed, as of Go 1.26, up to the point where it checks that
each component can be unescaped and that the host is well formed. -/

/-- Go `strings.Cut` for a separator of one character: the text before the
first separator, the text after it and whether there was one. -/
def cutAt (sep : Char) : List Char → List Char × List Char × Bool
  | [] => ([], [], false)
  | c :: t =>
    if c = sep then ([], t, true)
    else ((c :: (cutAt sep t).1), (cutAt sep t).2.1, (cutAt sep t).2.2)

/-- Go `strings.LastIndex` for a separator of one character, counted in
characters; `i` is the index of the head of the list. -/
def lastIndexFrom (sep : Char) : Nat → List Char → Option Nat
  | _, [] => none
  | i, c :: t =>
    match lastIndexFrom sep (i + 1) t with
    | some j => some j
    | none => if c = sep then some i else none

/-- Go `strings.Index`, counted in characters; `i` is the index of the head. -/
def indexFrom (pat : List Char) : Nat → List Char → Option Nat
  | i, [] => if pat.isEmpty then some i else none
  | i, c :: t => if pat.isPrefixOf (c :: t) then some i else indexFrom pat (i + 1) t

/-- Go `url.stringContainsCTLByte`. -/
def stringContainsCTLByte (s : List Char) : Bool :=
  s.any (fun c => c.toNat < 0x20 || c.toNat = 0x7f)

/-- The loop of Go `url.getScheme`; `i` is the index of the head of the list. -/
def getSchemeFrom (rawURL : List Char) : Nat → List Char →
    Except String (List Char × List Char)
  | _, [] => .ok ([], rawURL)
  | i, c :: t =>
    if c.isAlpha then getSchemeFrom rawURL (i + 1) t
    else if c.isDigit || c = '+' || c = '-' || c = '.' then
      if i = 0 then .ok ([], rawURL) else getSchemeFrom rawURL (i + 1) t
    else if c = ':' then
      if i = 0 then .error "missing protocol scheme" else .ok (rawURL.take i, t)
    else .ok ([], rawURL)

/-- Go `url.getScheme`: the scheme and what follows its colon. -/
def getScheme (rawURL : List Char) : Except String (List Char × List Char) :=
  getSchemeFrom rawURL 0 rawURL

/-- The modes of Go `url.unescape` that `url.Parse` uses. -/
inductive Encoding where
  /-- The mode `encodePath`. -/
  | encodePath
  /-- The mode `encodeHost`. -/
  | encodeHost
  /-- The mode `encodeZone`. -/
  | encodeZone
  /-- The mode `encodeUserPassword`. -/
  | encodeUserPassword
  /-- The mode `encodeFragment`. -/
  | encodeFragment
  deriving DecidableEq

/-- Go `url.ishex`. -/
def ishex (c : Char) : Bool :=
  c.isDigit || ('a' ≤ c && c ≤ 'f') || ('A' ≤ c && c ≤ 'F')

/-- Go `url.unhex`. -/
def unhex (c : Char) : Nat :=
  if c.isDigit then c.toNat - 48
  else if 'a' ≤ c && c ≤ 'f' then c.toNat - 97 + 10
  else if 'A' ≤ c && c ≤ 'F' then c.toNat - 65 + 10
  else 0

/-- The punctuation a host may hold unescaped: the cases of Go
`url.shouldEscape` that return false in mode `encodeHost`. -/
def hostPunctuation : List Char := "!$&'()*+,;=:[]<>\"-_.~".toList

/-- Go `url.shouldEscape(c, encodeHost)` for the byte with code `v`. -/
def shouldEscapeHost (v : Nat) : Bool :=
  !(v < 128 && ((Char.ofNat v).isAlphanum || hostPunctuation.contains (Char.ofNat v)))

/-- The checks of Go `url.unescape`: `none` when the text can be unescaped in
the given mode, and the error otherwise. -/
def unescapeError (mode : Encoding) : List Char → Option String
  | [] => none
  | '%' :: a :: b :: t =>
    if !(ishex a && ishex b) then some "invalid URL escape"
    else if mode = .encodeHost && unhex a < 8 && !(a = '2' && b = '5') then
      some "invalid URL escape"
    else if mode = .encodeZone && !(a = '2' && b = '5') && unhex a * 16 + unhex b ≠ 32
        && shouldEscapeHost (unhex a * 16 + unhex b) then
      some "invalid URL escape"
    else unescapeError mode t
  | '%' :: _ => some "invalid URL escape"
  | c :: t =>
    if (mode = .encodeHost || mode = .encodeZone) && c.toNat < 0x80
        && shouldEscapeHost c.toNat then
      some "invalid character in host name"
    else unescapeError mode t

/-- Go `url.validOptionalPort`. -/
def validOptionalPort : List Char → Bool
  | [] => true
  | c :: t => c = ':' && t.all (fun b => '0' ≤ b && b ≤ '9')

/-- Go `netip.parseIPv4Fields`: whether the text is four decimal fields
between 0 and 255, without leading zeros, separated by dots.  The arguments
are the value, the number and the digit count of the field being read,
whether the text starts here and whether the last character was a dot. -/
def ipv4FieldsOk : List Char → Nat → Nat → Nat → Bool → Bool → Bool
  | [], _, pos, _, _, _ => decide (3 ≤ pos)
  | c :: t, val, pos, digLen, atStart, afterDot =>
    if c.isDigit then
      if digLen = 1 && val = 0 then false
      else if val * 10 + (c.toNat - 48) > 255 then false
      else ipv4FieldsOk t (val * 10 + (c.toNat - 48)) pos (digLen + 1) false false
    else if c = '.' then
      if atStart || t.isEmpty || afterDot then false
      else if pos = 3 then false
      else ipv4FieldsOk t 0 (pos + 1) 0 false true
    else false

/-- The end of Go `netip.parseIPv6`, once the text is used up: with fewer than
16 bytes an ellipsis `::` must stand for the rest, with 16 bytes there must be
none. -/
def ipv6LengthOk (i : Nat) (ellipsis : Bool) : Bool :=
  if i < 16 then ellipsis else !ellipsis

/-- The loop of Go `netip.parseIPv6` over the groups of hex digits.  `i` is the
number of bytes parsed so far, `groups` the number of groups that still fit
(`i + 2 * groups = 16`), `ellipsis` whether a `::` was seen. -/
def parseIPv6Loop : Nat → Nat → Bool → List Char → Bool
  | 0, _, ellipsis, s => s.isEmpty && !ellipsis
  | groups + 1, i, ellipsis, s =>
    if (s.takeWhile ishex).length = 0 || (s.takeWhile ishex).length > 4 then false
    else
      match s.dropWhile ishex with
      | [] => ipv6LengthOk (i + 2) ellipsis
      | '.' :: _ =>
        if (!ellipsis && i ≠ 12) || i + 4 > 16 then false
        else ipv4FieldsOk s 0 0 0 true false && ipv6LengthOk (i + 4) ellipsis
      | [':'] => false
      | [':', ':'] => !ellipsis && ipv6LengthOk (i + 2) true
      | ':' :: ':' :: t => if ellipsis then false else parseIPv6Loop groups (i + 2) true t
      | ':' :: t => parseIPv6Loop groups (i + 2) ellipsis t
      | _ => false

/-- Go `netip.parseIPv6` on an address without zone: whether it parses. -/
def parseIPv6Ok : List Char → Bool
  | [':', ':'] => true
  | ':' :: ':' :: t => parseIPv6Loop 8 0 true t
  | s => parseIPv6Loop 8 0 false s

/-- Whether Go `netip.ParseAddr` reads the unescaped text between the brackets
of a host as an IPv6 address.  `addr` is the text before the zone and `zone`
the escaped text of the zone after its `%25`, if there is one.  The first of
`.`, `:` and `%` in the text must be a colon; an escape in `addr` stands for a
byte that no address has; a zone that is given must not be empty. -/
def ipLiteralOk (addr : List Char) (zone : Option (List Char)) : Bool :=
  !addr.contains '%' && addr.find? (fun c => c = '.' || c = ':') = some ':'
    && zone ≠ some [] && parseIPv6Ok addr

/-- Go `url.parseHost` (Go 1.26): `none` when the host is accepted.  An opening
bracket must be the first character; the text between the brackets must be an
IPv6 address, with or without zone; without brackets the port starts at the
first colon. -/
def parseHostError (host : List Char) : Option String :=
  match lastIndexFrom '[' 0 host with
  | some (_ + 1) => some "invalid IP-literal"
  | some 0 =>
    match lastIndexFrom ']' 0 host with
    | none => some "missing ']' in host"
    | some i =>
      if !validOptionalPort (host.drop (i + 1)) then some "invalid port after host"
      else
        match indexFrom "%25".toList 0 ((host.take i).drop 1) with
        | some zone =>
          (unescapeError .encodeHost (((host.take i).drop 1).take zone)).orElse fun _ =>
          (unescapeError .encodeZone (((host.take i).drop 1).drop zone)).orElse fun _ =>
          if ipLiteralOk (((host.take i).drop 1).take zone)
              (some (((host.take i).drop 1).drop (zone + 3))) then none
          else some "invalid host"
        | none =>
          (unescapeError .encodeHost ((host.take i).drop 1)).orElse fun _ =>
          if ipLiteralOk ((host.take i).drop 1) none then none else some "invalid host"
  | none =>
    match indexFrom [':'] 0 host with
    | some i =>
      if !validOptionalPort (host.drop i) then some "invalid port after host"
      else unescapeError .encodeHost host
    | none => unescapeError .encodeHost host

/-- Go `url.validUserinfo`. -/
def validUserinfo (s : List Char) : Bool :=
  s.all (fun r => r.isAlphanum || "-._:~!$&'()*+,;=%@".toList.contains r)

/-- Go `url.parseAuthority`: the userinfo (if any) and the host, or the error. -/
def parseAuthority (authority : List Char) : Except String (Option String × String) :=
  match lastIndexFrom '@' 0 authority with
  | none =>
    match parseHostError authority with
    | some e => .error e
    | none => .ok (none, String.mk authority)
  | some i =>
    match parseHostError (authority.drop (i + 1)) with
    | some e => .error e
    | none =>
      let userinfo := authority.take i
      if !validUserinfo userinfo then .error "net/url: invalid userinfo"
      else
        match (unescapeError .encodeUserPassword (cutAt ':' userinfo).1).orElse fun _ =>
            unescapeError .encodeUserPassword (cutAt ':' userinfo).2.1 with
        | some e => .error e
        | none => .ok (some (String.mk userinfo), String.mk (authority.drop (i + 1)))

/-- Go `url.URL`, each component in escaped form. -/
structure URL where
  /-- The field `Scheme`. -/
  Scheme : String
  /-- The field `Opaque`. -/
  OpaqueData : String
  /-- The field `User`, as written in the URL. -/
  User : Option String
  /-- The field `Host`. -/
  Host : String
  /-- The path, as written in the URL. -/
  Path : String
  /-- The field `ForceQuery`. -/
  ForceQuery : Bool
  /-- The field `RawQuery`. -/
  RawQuery : String
  /-- The fragment, as written in the URL. -/
  Fragment : String
  deriving DecidableEq, Repr

/-- Go `url.parse(rawURL, false)`, for a URL without fragment. -/
def URL.parse (rawURL : List Char) : Except String URL :=
  if stringContainsCTLByte rawURL then .error "net/url: invalid control character in URL"
  else if rawURL = ['*'] then
    .ok { Scheme := "", OpaqueData := "", User := none, Host := "", Path := "*",
          ForceQuery := false, RawQuery := "", Fragment := "" }
  else
    match getScheme rawURL with
    | .error e => .error e
    | .ok (scheme0, rest0) =>
      let scheme := scheme0.map Char.toLower
      let forceQuery := rest0.getLast? = some '?' && rest0.count '?' = 1
      let rest1 := if forceQuery then rest0.dropLast else (cutAt '?' rest0).1
      let rawQuery := if forceQuery then [] else (cutAt '?' rest0).2.1
      let url : URL :=
        { Scheme := String.mk scheme, OpaqueData := "", User := none, Host := "", Path := "",
          ForceQuery := forceQuery, RawQuery := String.mk rawQuery, Fragment := "" }
      if rest1.head? ≠ some '/' && !scheme.isEmpty then
        .ok { url with OpaqueData := String.mk rest1 }
      else if rest1.head? ≠ some '/' && (cutAt '/' rest1).1.contains ':' then
        .error "first path segment in URL cannot contain colon"
      else if (!scheme.isEmpty || !"///".toList.isPrefixOf rest1)
          && "//".toList.isPrefixOf rest1 then
        let authority := (cutAt '/' (rest1.drop 2)).1
        let rest2 := if (cutAt '/' (rest1.drop 2)).2.2
                     then '/' :: (cutAt '/' (rest1.drop 2)).2.1 else []
        match parseAuthority authority with
        | .error e => .error e
        | .ok (user, host) =>
          match unescapeError .encodePath rest2 with
          | some e => .error e
          | none => .ok { url with User := user, Host := host, Path := String.mk rest2 }
      else
        match unescapeError .encodePath rest1 with
        | some e => .error e
        | none => .ok { url with Path := String.mk rest1 }

/-- Go `url.Parse`. -/
def URL.Parse (rawURL : String) : Except GoError URL :=
  let u := (cutAt '#' rawURL.toList).1
  let frag := (cutAt '#' rawURL.toList).2.1
  match URL.parse u with
  | .error e => .error (GoError.urlParse (String.mk u) e)
  | .ok url =>
    if frag.isEmpty then .ok url
    else
      match unescapeError .encodeFragment frag with
      | some e => .error (GoError.urlParse rawURL e)
      | none => .ok { url with Fragment := String.mk frag }

/-! ## `encoding/base64`, standard encoding -/

/-- The byte of an ASCII character. -/
def byteOfChar (c : Char) : Byte := Fin.ofNat c.toNat

/-- The alphabet `encodeStd` of `base64.StdEncoding`. -/
def encodeStd : List Byte :=
  "ABCDEFGHIJKLMNOPQRSTUVWXYZabcdefghijklmnopqrstuvwxyz0123456789+/".toList.map byteOfChar

/-- The padding character `=` of `base64.StdEncoding`. -/
def padChar : Byte := 61

/-- The table `enc.encode` of `base64.StdEncoding`. -/
def encodeByte (i : Nat) : Byte := encodeStd.getD i 0

/-- The table `enc.decodeMap` of `base64.StdEncoding`: the index of the byte
in the alphabet, and `0xFF` for a byte outside of it. -/
def decodeMap (c : Byte) : Nat :=
  if encodeStd.indexOf c < 64 then encodeStd.indexOf c else 0xFF

/-- Go `base64.StdEncoding.Encode` (and `EncodeToString`). -/
def stdEncode : List Byte → List Byte
  | [] => []
  | a :: b :: c :: t =>
    let val := a.val <<< 16 ||| b.val <<< 8 ||| c.val
    encodeByte (val >>> 18 &&& 0x3F) :: encodeByte (val >>> 12 &&& 0x3F)
      :: encodeByte (val >>> 6 &&& 0x3F) :: encodeByte (val &&& 0x3F) :: stdEncode t
  | [a, b] =>
    let val := a.val <<< 16 ||| b.val <<< 8
    [encodeByte (val >>> 18 &&& 0x3F), encodeByte (val >>> 12 &&& 0x3F),
      encodeByte (val >>> 6 &&& 0x3F), padChar]
  | [a] =>
    let val := a.val <<< 16
    [encodeByte (val >>> 18 &&& 0x3F), encodeByte (val >>> 12 &&& 0x3F), padChar, padChar]

/-- The end of Go `decodeQuantum`: the first `dlen - 1` bytes of the three
that the four 6-bit values make. -/
def quantumBytes (d0 d1 d2 d3 : Nat) (dlen : Nat) : List Byte :=
  let val := d0 <<< 18 ||| d1 <<< 12 ||| d2 <<< 6 ||| d3
  ([Fin.ofNat (val >>> 16), Fin.ofNat (val >>> 8), Fin.ofNat val] : List Byte).take (dlen - 1)

/-- Go `decodeQuantum` of `base64.StdEncoding` on the four bytes of one
quantum; `more` tells whether input follows the quantum.  The result is the
decoded bytes and the error; the offset of a `CorruptInputError` is left out. -/
def decodeQuantum (c0 c1 c2 c3 : Byte) (more : Bool) : List Byte × Option GoError :=
  if decodeMap c0 = 0xFF ∨ decodeMap c1 = 0xFF then ([], some .corruptInput)
  else if decodeMap c2 = 0xFF then
    if c2 ≠ padChar ∨ c3 ≠ padChar then ([], some .corruptInput)
    else (quantumBytes (decodeMap c0) (decodeMap c1) 0 0 2,
          if more then some .corruptInput else none)
  else if decodeMap c3 = 0xFF then
    if c3 ≠ padChar then ([], some .corruptInput)
    else (quantumBytes (decodeMap c0) (decodeMap c1) (decodeMap c2) 0 3,
          if more then some .corruptInput else none)
  else (quantumBytes (decodeMap c0) (decodeMap c1) (decodeMap c2) (decodeMap c3) 4, none)

/-- Go `base64.StdEncoding.Decode` on a chunk without line ends: the quanta
are decoded one after the other up to the first error, and a last quantum of
fewer than four bytes is a `CorruptInputError`.  Input that follows padding
inside the chunk is an error. -/
def decodeChunk : List Byte → List Byte × Option GoError
  | [] => ([], none)
  | c0 :: c1 :: c2 :: c3 :: rest =>
    match decodeQuantum c0 c1 c2 c3 (!rest.isEmpty) with
    | (out, some e) => (out, some e)
    | (out, none) => (out ++ (decodeChunk rest).1, (decodeChunk rest).2)
  | _ => ([], some .corruptInput)

/-- The last reads of the decoder of `base64.NewDecoder`, when all input that
is left is in its buffer: the full quanta are decoded as one chunk, and a rest
of one to three bytes is `io.ErrUnexpectedEOF`. -/
def decodeLast (src : List Byte) : List Byte × Option GoError :=
  match decodeChunk (src.take (src.length / 4 * 4)) with
  | (out, some e) => (out, some e)
  | (out, none) => (out, if src.length % 4 = 0 then none else some .unexpectedEOF)

/-- What is read from Go `base64.NewDecoder(base64.StdEncoding, r)` up to its
end or first error, `src` being the input of `r` without its line ends.  The
decoder fills its buffer, decodes the full quanta in it as one chunk and keeps
the rest for the next chunk; how many quanta a chunk has depends on the sizes
of the buffers that the caller reads into.  `sched` lists, chunk by chunk,
the number of quanta less one; when the list is used up, the input left is
decoded as one chunk. -/
def decoderRead : List Nat → List Byte → List Byte × Option GoError
  | [], src => decodeLast src
  | k :: sched, src =>
    if src.length / 4 ≤ k + 1 then decodeLast src
    else
      match decodeChunk (src.take (4 * (k + 1))) with
      | (out, some e) => (out, some e)
      | (out, none) =>
        (out ++ (decoderRead sched (src.drop (4 * (k + 1)))).1,
          (decoderRead sched (src.drop (4 * (k + 1)))).2)

/-- The filter of Go `base64.newlineFilteringReader`. -/
def filterNewlines (src : List Byte) : List Byte :=
  src.filter (fun b => b ≠ 13 ∧ b ≠ 10)

/-! ## `net/http`: requests -/

/-- The readers that occur as request body. -/
inductive BodyReader where
  /-- Go `strings.NewReader(s)`. -/
  | stringsReader (s : List Byte) : BodyReader
  /-- Go `base64.NewDecoder(base64.StdEncoding, strings.NewReader(s))`. -/
  | base64Decoder (s : List Byte) : BodyReader
  /-- Go `http.NoBody`. -/
  | noBody : BodyReader
  deriving DecidableEq

/-- Read the body to its end: the bytes read and the error that ended the
reading, `none` standing for `io.EOF`.  The list `sched` tells how the reads
cut the input of a base64 decoder into chunks, see `decoderRead`. -/
def BodyReader.readAll (sched : List Nat) : BodyReader → List Byte × Option GoError
  | .stringsReader s => (s, none)
  | .base64Decoder s => decoderRead sched (filterNewlines s)
  | .noBody => ([], none)

/-- Go `http.Request`, the fields that `NewRequestWithContext` and `Wrap` set. -/
structure Request where
  /-- The context of the request. -/
  ctx : Context
  /-- The field `Method`. -/
  Method : String
  /-- The field `URL`. -/
  URL : URL
  /-- The field `Header`. -/
  Header : Header
  /-- The field `Body`. -/
  Body : BodyReader
  /-- The field `ContentLength`. -/
  ContentLength : Nat
  /-- The field `Host`. -/
  Host : String
  /-- The field `RemoteAddr`. -/
  RemoteAddr : String
  deriving DecidableEq

/-- Go `http.validMethod`: a non-empty string of token characters. -/
def validMethod (method : String) : Bool :=
  method.length > 0 && method.toList.all isTokenChar

/-- Go `http.removeEmptyPort`. -/
def removeEmptyPort (host : String) : String :=
  let h := host.toList
  let hasPort := match lastIndexFrom ':' 0 h, lastIndexFrom ']' 0 h with
    | some i, some j => decide (i > j)
    | some _, none => true
    | none, _ => false
  if hasPort && h.getLast? = some ':' then String.mk h.dropLast else host

/-- Go `http.NewRequestWithContext` (the context is never nil here). -/
def NewRequestWithContext (ctx : Context) (method url : String) (body : BodyReader) :
    Except GoError Request :=
  let method := if method = "" then "GET" else method
  if !validMethod method then .error (GoError.invalidMethod method)
  else
    match URL.Parse url with
    | .error err => .error err
    | .ok u =>
      let host := removeEmptyPort u.Host
      let contentLength := match body with
        | .stringsReader s => s.length
        | _ => 0
      let rc := match body with
        | .stringsReader s => if s.length = 0 then BodyReader.noBody else body
        | _ => body
      .ok { ctx := ctx, Method := method, URL := { u with Host := host },
            Header := GoMap.empty, Body := rc, ContentLength := contentLength,
            Host := host, RemoteAddr := "" }

/-! ## `Wrap` -/

/-- An `http.Handler`: what `ServeHTTP` does with the sink, given the request. -/
abbrev Handler := Request → HandlerProg

/-- Lines 86-89 of `Wrap`: the body reader. -/
def requestBody (request : LambdaFunctionURLRequest) : BodyReader :=
  if request.IsBase64Encoded then .base64Decoder request.Body
  else .stringsReader request.Body

/-- Lines 90-93 of `Wrap`: the URL string. -/
def requestURL (request : LambdaFunctionURLRequest) : String :=
  let url := "https://" ++ request.RequestContext.DomainName ++ request.RawPath
  if request.RawQueryString ≠ "" then url ++ "?" ++ request.RawQueryString else url

/-- Line 94 of `Wrap`: the context with the event attached. -/
def requestContext (ctx : Context) (request : LambdaFunctionURLRequest) : Context :=
  ctx.WithValue ContextKey.requestContextKey (ContextValue.requestValue request)

/-- Lines 99-102 of `Wrap`: the remote address and the headers of the event. -/
def fillRequest (httpRequest : Request) (request : LambdaFunctionURLRequest) : Request :=
  request.Headers.entries.foldl
    (fun r kv => { r with Header := r.Header.Add kv.1 kv.2 })
    { httpRequest with RemoteAddr := request.RequestContext.HTTP.SourceIP }

/-- Lines 86-102 of `Wrap`: the request given to the handler, or the error of
`http.NewRequestWithContext`. -/
def httpRequestOf (ctx : Context) (request : LambdaFunctionURLRequest) :
    Except GoError Request :=
  match NewRequestWithContext (requestContext ctx request)
      request.RequestContext.HTTP.Method (requestURL request) (requestBody request) with
  | .error err => .error err
  | .ok httpRequest => .ok (fillRequest httpRequest request)

/-- Lines 104-106 of `Wrap`: the sink after the handler has run on a fresh
sink over an empty `strings.Builder`. -/
def serve (handler : Handler) (httpRequest : Request) : httpResponseWriter (List Byte) :=
  (handler httpRequest).run stringsBuilder (newHTTPResponseWriter [])

/-- Go `strings.Join`. -/
def stringsJoin (elems : List String) (sep : String) : String := sep.intercalate elems

/-- The body of the loop in lines 113-119 of `Wrap`. -/
def collectHeader (response : LambdaFunctionURLResponse) (kv : String × List String) :
    LambdaFunctionURLResponse :=
  if kv.1 = "Set-Cookie" then { response with Cookies := kv.2 }
  else { response with Headers := response.Headers.set kv.1 (stringsJoin kv.2 ",") }

/-- Lines 108-119 of `Wrap`: the response made from the sink. -/
def responseOf (responseWriter : httpResponseWriter (List Byte)) :
    LambdaFunctionURLResponse :=
  responseWriter.header.entries.foldl collectHeader
    { StatusCode := responseWriter.code, Body := responseWriter.writer,
      Headers := GoMap.empty, IsBase64Encoded := false, Cookies := [] }

/-- Wrap converts an http.Handler into a Lambda request handler. -/
def Wrap (handler : Handler) (ctx : Context) (request : LambdaFunctionURLRequest) :
    LambdaFunctionURLResponse × Option RequestConvertionError :=
  match httpRequestOf ctx request with
  | .error err => (LambdaFunctionURLResponse.zero, some { Cause := err })
  | .ok httpRequest => (responseOf (serve handler httpRequest), none)

/-! ## Sequences of writes, observed results, counted headers -/

/-- Calls of `Write` on an `io.Writer`, one after the other: the results of
the calls, in order, and the state of the writer after the last one. -/
def GoWriter.writeAll {σ : Type} (W : GoWriter σ) (st : σ) :
    List (List Byte) → List (Nat × Option GoError) × σ
  | [] => ([], st)
  | p :: ps =>
    ((W.Write st p).1 :: (GoWriter.writeAll W (W.Write st p).2 ps).1,
      (GoWriter.writeAll W (W.Write st p).2 ps).2)

/-- Calls of the method `Write` of the sink, one after the other: the results
of the calls, in order, and the sink after the last one. -/
def httpResponseWriter.writeAll {σ : Type} (W : GoWriter σ) (w : httpResponseWriter σ) :
    List (List Byte) → List (Nat × Option WriteResponseError) × httpResponseWriter σ
  | [] => ([], w)
  | p :: ps =>
    ((w.Write W p).1 :: (httpResponseWriter.writeAll W (w.Write W p).2 ps).1,
      (httpResponseWriter.writeAll W (w.Write W p).2 ps).2)

/-- A writer that keeps, next to the state of `W`, the list of the byte
slices it was called with. -/
def GoWriter.recording {σ : Type} (W : GoWriter σ) : GoWriter (σ × List (List Byte)) where
  Write := fun st p => ((W.Write st.1 p).1, ((W.Write st.1 p).2, st.2 ++ [p]))

/-- A buffer that accepts every write but its `n`-th, which it refuses with
the error `err` and the count 0.  The state is the buffer and the number of
calls made. -/
def failingBuilder (n : Nat) (err : GoError) : GoWriter (List Byte × Nat) where
  Write := fun st p =>
    if st.2 + 1 = n then ((0, some err), (st.1, st.2 + 1))
    else ((p.length, none), (st.1 ++ p, st.2 + 1))

/-- The bytes of the `Write` calls of a sequence of calls, in order. -/
def writesOf : List SinkOp → List (List Byte)
  | [] => []
  | .write p :: t => p :: writesOf t
  | _ :: t => writesOf t

/-- The results that a handler sees of its `Write` calls when it is run on a
sink, in order. -/
def HandlerProg.results {σ : Type} (W : GoWriter σ) :
    HandlerProg → httpResponseWriter σ → List (Nat × Option WriteResponseError)
  | .done, _ => []
  | .header f next, w => next.results W (w.mutateHeader f)
  | .write p next, w =>
      (w.Write W p).1 :: (next (w.Write W p).1.1 (w.Write W p).1.2).results W (w.Write W p).2
  | .writeHeader c next, w => next.results W (w.WriteHeader c)

/-- The number of values of a header mapping, all keys taken together. -/
def Header.valueCount (h : Header) : Nat := (h.entries.map (fun e => e.2.length)).sum

/-- An `http.Handler` with effects outside of the sink: next to what it does
with the sink, `ServeHTTP` changes a state of type `ω`. -/
abbrev EffectHandler (ω : Type) := Request → ω → HandlerProg × ω

/-- The function that `Wrap` returns, for a handler with effects outside of the
sink: the results and the outside state after the call. -/
def WrapEffect {ω : Type} (handler : EffectHandler ω) (ctx : Context)
    (request : LambdaFunctionURLRequest) (world : ω) :
    (LambdaFunctionURLResponse × Option RequestConvertionError) × ω :=
  match httpRequestOf ctx request with
  | .error err => ((LambdaFunctionURLResponse.zero, some { Cause := err }), world)
  | .ok httpRequest =>
    ((responseOf (((handler httpRequest world).1).run stringsBuilder (newHTTPResponseWriter [])),
      none), (handler httpRequest world).2)

/-! ## Sample inputs -/

/-- The bytes of an ASCII text. -/
def bytesOf (s : String) : List Byte := s.toList.map byteOfChar

/-- An event: the given method, body and encoding flag for
`https://api.example.com/items`, with one header. -/
def sampleEvent (method : String) (body : List Byte) (isBase64Encoded : Bool) :
    LambdaFunctionURLRequest :=
  { Version := "2.0", RawPath := "/items", RawQueryString := "", Cookies := [],
    Headers := ⟨[("accept", "text/html,text/plain")], (by decide)⟩,
    QueryStringParameters := GoMap.empty,
    RequestContext :=
      { AccountID := "anonymous", RequestID := "id-1", APIID := "abc",
        DomainName := "api.example.com", DomainPrefix := "api", Time := "", TimeEpoch := 0,
        HTTP :=
          { Method := method, Path := "/items", Protocol := "HTTP/1.1",
            SourceIP := "192.0.2.1", UserAgent := "curl" } },
    Body := body, IsBase64Encoded := isBase64Encoded }

/-- The request that `Wrap` makes of `sampleEvent method body isBase64Encoded`
when the method is a token. -/
def sampleRequest (method : String) (body : List Byte) (isBase64Encoded : Bool)
    (rc : BodyReader) (contentLength : Nat) : Request :=
  { ctx := [(ContextKey.requestContextKey,
      ContextValue.requestValue (sampleEvent method body isBase64Encoded))],
    Method := if method = "" then "GET" else method,
    URL :=
      { Scheme := "https", OpaqueData := "", User := none, Host := "api.example.com",
        Path := "/items", ForceQuery := false, RawQuery := "", Fragment := "" },
    Header := ⟨[("Accept", ["text/html,text/plain"])], (by decide)⟩,
    Body := rc, ContentLength := contentLength, Host := "api.example.com",
    RemoteAddr := "192.0.2.1" }

/-- A handler that adds `1` and then `2` under `X-Foo`. -/
def addTwiceHandler : Handler := fun _ =>
  .header (fun h => h.Add "X-Foo" "1") (.header (fun h => h.Add "X-Foo" "2") .done)

/-- A handler that writes a body, the cookies `a=1` and `b=2` through `Add`
under a lower-case name, and one more header. -/
def cookieHandler : Handler := fun _ =>
  .write (bytesOf "ok") fun _ _ =>
    .header (fun h => ((h.Add "set-cookie" "a=1").Add "set-cookie" "b=2").Add "X-Foo" "1")
      .done

/-- A handler that stores the cookies `a=1` and `b=2` in the mapping itself,
under the key `set-cookie`. -/
def rawCookieHandler : Handler := fun _ =>
  .header (fun h => h.set "set-cookie" ["a=1", "b=2"]) .done

/-- A handler that writes, sets the status 404, changes a header, sets the
status 201 and writes again. -/
def statusHandler : Handler := fun _ =>
  .write (bytesOf "a") fun _ _ =>
    .writeHeader 404 (.header (fun h => h.Set "X-Foo" "1")
      (.writeHeader 201 (.write (bytesOf "b") fun _ _ => .done)))

/-- Equality of two texts up to the case of their ASCII letters. -/
def equalFold (s t : String) : Bool :=
  s.toList.map Char.toLower = t.toList.map Char.toLower

/-- A handler that writes `a`, sets the status 500 if that write reported an
error, and writes `b`. -/
def errorCheckingHandler : Handler := fun _ =>
  .write (bytesOf "a") fun _ err =>
    if err.isSome then .writeHeader 500 .done
    else .write (bytesOf "b") fun _ _ => .done

/-- An event with two header entries whose keys have the same canonical form. -/
def twoHeaderEvent : LambdaFunctionURLRequest :=
  { sampleEvent "GET" [] false with
    Headers := ⟨[("x-foo", "a,b"), ("X-FOO", "c")], (by decide)⟩ }

/-- The request that `Wrap` makes of `twoHeaderEvent`. -/
def twoHeaderRequest : Request :=
  { sampleRequest "GET" [] false .noBody 0 with
    ctx := [(ContextKey.requestContextKey, ContextValue.requestValue twoHeaderEvent)],
    Header := ⟨[("X-Foo", ["a,b", "c"])], (by decide)⟩ }

/-- A sink with two headers and a cookie, status 201 and the body `ok`. -/
def sampleSink : httpResponseWriter (List Byte) :=
  { header := ⟨[("X-A", ["1", "2"]), ("Set-Cookie", ["c=1", "d=2"]), ("X-B", ["3"])],
      (by decide)⟩,
    code := 201, writer := bytesOf "ok" }

/-- The sink `sampleSink` with its header mapping enumerated in another order. -/
def sampleSinkReordered : httpResponseWriter (List Byte) :=
  { header := ⟨[("X-B", ["3"]), ("X-A", ["1", "2"]), ("Set-Cookie", ["c=1", "d=2"])],
      (by decide)⟩,
    code := 201, writer := bytesOf "ok" }

/-- The event `sampleEvent "GET" [] false` with another domain name. -/
def sampleEventAt (domainName : String) : LambdaFunctionURLRequest :=
  { sampleEvent "GET" [] false with
    RequestContext :=
      { (sampleEvent "GET" [] false).RequestContext with DomainName := domainName } }

/-! ## Lemmas on entry lists and maps -/

theorem assocGet_assocSet {V : Type} (k k2 : String) (v : V) (l : List (String × V)) :
    assocGet k (assocSet k2 v l) = if k2 = k then some v else assocGet k l := by
  induction l with
  | nil => simp [assocSet, assocGet]
  | cons e t ih =>
    by_cases h : e.1 = k2
    · by_cases h2 : k2 = k
      · simp [assocSet, assocGet, h, h2]
      · have h3 : ¬ e.1 = k := fun h4 => h2 (h ▸ h4)
        simp [assocSet, assocGet, h, h2, h3]
    · by_cases h2 : e.1 = k
      · have h3 : ¬ k2 = k := fun h4 => h (h2.trans h4.symm)
        have h5 : ¬ k = k2 := fun h4 => h3 h4.symm
        simp [assocSet, assocGet, h2, h3, h5, ih]
      · simp [assocSet, assocGet, h, h2, ih]

theorem assocGet_eq_none_iff {V : Type} (k : String) (l : List (String × V)) :
    assocGet k l = none ↔ k ∉ l.map Prod.fst := by
  induction l with
  | nil => simp [assocGet]
  | cons e t ih =>
    by_cases h : e.1 = k
    · simp [assocGet, h]
    · have h2 : ¬ k = e.1 := fun h3 => h h3.symm
      simp [assocGet, h, h2, ih]

theorem assocGet_isSome_iff {V : Type} (k : String) (l : List (String × V)) :
    (assocGet k l).isSome ↔ k ∈ l.map Prod.fst := by
  rw [← not_iff_not, ← assocGet_eq_none_iff]
  cases assocGet k l <;> simp

theorem GoMap.get?_set {V : Type} (m : GoMap V) (k k2 : String) (v : V) :
    (m.set k2 v).get? k = if k2 = k then some v else m.get? k :=
  assocGet_assocSet k k2 v m.entries

theorem GoMap.mem_keys_iff {V : Type} (m : GoMap V) (k : String) :
    k ∈ m.keys ↔ (m.get? k).isSome :=
  (assocGet_isSome_iff k m.entries).symm

/-! ## Lemmas on the response loop -/

theorem foldl_collectHeader_code (l : List (String × List String))
    (r : LambdaFunctionURLResponse) :
    (l.foldl collectHeader r).StatusCode = r.StatusCode ∧
      (l.foldl collectHeader r).Body = r.Body ∧
      (l.foldl collectHeader r).IsBase64Encoded = r.IsBase64Encoded := by
  induction l generalizing r with
  | nil => simp
  | cons e t ih =>
    rw [List.foldl_cons]
    obtain ⟨h1, h2, h3⟩ := ih (collectHeader r e)
    rw [h1, h2, h3]
    unfold collectHeader
    split <;> simp

theorem foldl_collectHeader_headers (l : List (String × List String))
    (hl : (l.map Prod.fst).Nodup) (r : LambdaFunctionURLResponse) (k : String) :
    (l.foldl collectHeader r).Headers.get? k =
      if k = "Set-Cookie" then r.Headers.get? k
      else match assocGet k l with
        | some vs => some (stringsJoin vs ",")
        | none => r.Headers.get? k := by
  induction l generalizing r with
  | nil => simp [assocGet]
  | cons e t ih =>
    rw [List.map_cons, List.nodup_cons] at hl
    rw [List.foldl_cons, ih hl.2]
    by_cases hk : k = "Set-Cookie"
    · simp only [hk, if_true]
      unfold collectHeader
      split
      · rfl
      · rename_i he
        rw [GoMap.get?_set, if_neg he]
    · simp only [hk, if_false]
      by_cases he : e.1 = k
      · have hnone : assocGet k t = none := by
          rw [assocGet_eq_none_iff]; exact he ▸ hl.1
        have hne : ¬ e.1 = "Set-Cookie" := fun h => hk (he ▸ h)
        have hr : (collectHeader r e).Headers.get? k = some (stringsJoin e.2 ",") := by
          unfold collectHeader
          rw [if_neg hne, GoMap.get?_set, if_pos he]
        simp [hnone, assocGet, he, hr]
      · have hr : (collectHeader r e).Headers.get? k = r.Headers.get? k := by
          unfold collectHeader
          split
          · rfl
          · rw [GoMap.get?_set, if_neg he]
        simp [assocGet, he, hr]

theorem foldl_collectHeader_cookies (l : List (String × List String))
    (hl : (l.map Prod.fst).Nodup) (r : LambdaFunctionURLResponse) :
    (l.foldl collectHeader r).Cookies =
      match assocGet "Set-Cookie" l with
      | some vs => vs
      | none => r.Cookies := by
  induction l generalizing r with
  | nil => simp [assocGet]
  | cons e t ih =>
    rw [List.map_cons, List.nodup_cons] at hl
    rw [List.foldl_cons, ih hl.2]
    by_cases he : e.1 = "Set-Cookie"
    · have hnone : assocGet "Set-Cookie" t = none := by
        rw [assocGet_eq_none_iff]; exact he ▸ hl.1
      simp [hnone, assocGet, he, collectHeader]
    · simp [assocGet, he, collectHeader]

theorem responseOf_headers (w : httpResponseWriter (List Byte)) (k : String) :
    (responseOf w).Headers.get? k =
      if k = "Set-Cookie" then none
      else (w.header.get? k).map (fun vs => stringsJoin vs ",") := by
  unfold responseOf
  rw [foldl_collectHeader_headers _ w.header.nodup]
  split
  · rfl
  · unfold GoMap.get?
    cases assocGet k w.header.entries <;> rfl

theorem responseOf_cookies (w : httpResponseWriter (List Byte)) :
    (responseOf w).Cookies = (w.header.get? "Set-Cookie").getD [] := by
  unfold responseOf
  rw [foldl_collectHeader_cookies _ w.header.nodup]
  unfold GoMap.get?
  cases assocGet "Set-Cookie" w.header.entries <;> rfl

theorem responseOf_code (w : httpResponseWriter (List Byte)) :
    (responseOf w).StatusCode = w.code ∧ (responseOf w).Body = w.writer :=
  ⟨(foldl_collectHeader_code _ _).1, (foldl_collectHeader_code _ _).2.1⟩

theorem Wrap_ok (handler : Handler) (ctx : Context) (request : LambdaFunctionURLRequest)
    (httpRequest : Request) (h : httpRequestOf ctx request = .ok httpRequest) :
    Wrap handler ctx request = (responseOf (serve handler httpRequest), none) := by
  unfold Wrap
  rw [h]

/-! ## Headers and cookies of the response (C1 to C4) -/

/-- C1: when a handler run under `Wrap` leaves the values `vs` under a key
`k` other than `Set-Cookie` in the header mapping of the sink, the response
has `Headers[k]` equal to the values of `vs` joined with `,` in their order,
and no error. -/
theorem headers_joined_in_order (handler : Handler) (ctx : Context)
    (request : LambdaFunctionURLRequest) (httpRequest : Request)
    (hreq : httpRequestOf ctx request = .ok httpRequest) (k : String) (vs : List String)
    (hk : k ≠ "Set-Cookie")
    (hvs : (serve handler httpRequest).header.get? k = some vs) :
    (Wrap handler ctx request).1.Headers.get? k = some (stringsJoin vs ",") ∧
      (Wrap handler ctx request).2 = none := by
  rw [Wrap_ok handler ctx request httpRequest hreq]
  refine ⟨?_, rfl⟩
  show (responseOf (serve handler httpRequest)).Headers.get? k = _
  rw [responseOf_headers, if_neg hk, hvs]
  rfl

/-- Witness of C1: adding `1` and then `2` under `X-Foo` gives the response
header `X-Foo` the value `1,2`. -/
theorem headers_joined_in_order_witness :
    (Wrap addTwiceHandler [] (sampleEvent "GET" [] false)).1.Headers.get? "X-Foo"
        = some "1,2" ∧
      (Wrap addTwiceHandler [] (sampleEvent "GET" [] false)).2 = none :=
  headers_joined_in_order addTwiceHandler [] (sampleEvent "GET" [] false)
    (sampleRequest "GET" [] false .noBody 0) (by rfl) "X-Foo" ["1", "2"] (by decide)
    (by decide)

/-- C2: when a handler run under `Wrap` leaves the values `vs` under the key
`Set-Cookie`, the response has `Cookies` equal to `vs`, element by element
and unjoined, and its `Headers` have no entry for `Set-Cookie`. -/
theorem cookies_listed_not_joined (handler : Handler) (ctx : Context)
    (request : LambdaFunctionURLRequest) (httpRequest : Request)
    (hreq : httpRequestOf ctx request = .ok httpRequest) (vs : List String)
    (hvs : (serve handler httpRequest).header.get? "Set-Cookie" = some vs) :
    (Wrap handler ctx request).1.Cookies = vs ∧
      (Wrap handler ctx request).1.Headers.get? "Set-Cookie" = none ∧
      "Set-Cookie" ∉ (Wrap handler ctx request).1.Headers.keys := by
  rw [Wrap_ok handler ctx request httpRequest hreq]
  have h1 : (responseOf (serve handler httpRequest)).Headers.get? "Set-Cookie" = none := by
    rw [responseOf_headers, if_pos rfl]
  refine ⟨?_, h1, ?_⟩
  · show (responseOf (serve handler httpRequest)).Cookies = vs
    rw [responseOf_cookies, hvs]
    rfl
  · show "Set-Cookie" ∉ (responseOf (serve handler httpRequest)).Headers.keys
    rw [GoMap.mem_keys_iff, h1]
    simp

/-- Witness of C2: the cookies `a=1` and `b=2` come out as a list of two. -/
theorem cookies_listed_not_joined_witness :
    (Wrap cookieHandler [] (sampleEvent "GET" [] false)).1.Cookies = ["a=1", "b=2"] ∧
      (Wrap cookieHandler [] (sampleEvent "GET" [] false)).1.Headers.get? "Set-Cookie"
        = none ∧
      "Set-Cookie" ∉ (Wrap cookieHandler [] (sampleEvent "GET" [] false)).1.Headers.keys :=
  cookies_listed_not_joined cookieHandler [] (sampleEvent "GET" [] false)
    (sampleRequest "GET" [] false .noBody 0) (by rfl) ["a=1", "b=2"] (by decide)

/-- C3, counterexample: the key `set-cookie`, which equals `Set-Cookie` up to
letter case, stored in the mapping that `Header()` returns: its values are
not moved to `Cookies`, and the key is in `Headers` with the joined values. -/
theorem lowercase_cookie_key_is_joined :
    equalFold "set-cookie" "Set-Cookie" = true ∧
      httpRequestOf [] (sampleEvent "GET" [] false)
        = .ok (sampleRequest "GET" [] false .noBody 0) ∧
      (serve rawCookieHandler (sampleRequest "GET" [] false .noBody 0)).header.get?
        "set-cookie" = some ["a=1", "b=2"] ∧
      (Wrap rawCookieHandler [] (sampleEvent "GET" [] false)).1.Cookies = [] ∧
      (Wrap rawCookieHandler [] (sampleEvent "GET" [] false)).1.Headers.get? "set-cookie"
        = some "a=1,b=2" :=
  ⟨by decide, by rfl, by decide, by decide, by decide⟩

/-- C3, amended: the comparison with `Set-Cookie` is exact.  The values of the
key `Set-Cookie` are moved unchanged to `Cookies` and the key is not in
`Headers`; every other key, also one that differs from `Set-Cookie` in letter
case only, is in `Headers` with its values joined, and leaves `Cookies` to
the key `Set-Cookie`. -/
theorem cookie_key_compared_exactly (handler : Handler) (ctx : Context)
    (request : LambdaFunctionURLRequest) (httpRequest : Request)
    (hreq : httpRequestOf ctx request = .ok httpRequest) (k : String) (vs : List String)
    (hvs : (serve handler httpRequest).header.get? k = some vs) :
    (Wrap handler ctx request).1.Headers.get? k
        = (if k = "Set-Cookie" then none else some (stringsJoin vs ",")) ∧
      (Wrap handler ctx request).1.Cookies
        = (if k = "Set-Cookie" then vs
           else ((serve handler httpRequest).header.get? "Set-Cookie").getD []) := by
  rw [Wrap_ok handler ctx request httpRequest hreq]
  constructor
  · show (responseOf (serve handler httpRequest)).Headers.get? k = _
    rw [responseOf_headers, hvs]
    rfl
  · show (responseOf (serve handler httpRequest)).Cookies = _
    rw [responseOf_cookies]
    split
    · rename_i h
      rw [← h, hvs]
      rfl
    · rfl

/-- Witness of C3, amended, at the key `set-cookie`. -/
theorem cookie_key_compared_exactly_witness :
    (Wrap rawCookieHandler [] (sampleEvent "GET" [] false)).1.Headers.get? "set-cookie"
        = (if "set-cookie" = "Set-Cookie" then none
           else some (stringsJoin ["a=1", "b=2"] ",")) ∧
      (Wrap rawCookieHandler [] (sampleEvent "GET" [] false)).1.Cookies
        = (if "set-cookie" = "Set-Cookie" then ["a=1", "b=2"]
           else ((serve rawCookieHandler (sampleRequest "GET" [] false .noBody 0)).header.get?
             "Set-Cookie").getD []) :=
  cookie_key_compared_exactly rawCookieHandler [] (sampleEvent "GET" [] false)
    (sampleRequest "GET" [] false .noBody 0) (by rfl) "set-cookie" ["a=1", "b=2"]
    (by decide)

/-- C4: the keys of the response `Headers` are the keys of the sink other
than `Set-Cookie`, each once, and `Cookies` is the value list of the key
`Set-Cookie` when the sink has it and empty otherwise. -/
theorem header_keys_split (handler : Handler) (ctx : Context)
    (request : LambdaFunctionURLRequest) (httpRequest : Request)
    (hreq : httpRequestOf ctx request = .ok httpRequest) :
    (∀ k, k ∈ (Wrap handler ctx request).1.Headers.keys ↔
        (k ∈ (serve handler httpRequest).header.keys ∧ k ≠ "Set-Cookie")) ∧
      (Wrap handler ctx request).1.Headers.keys.Nodup ∧
      (Wrap handler ctx request).1.Cookies
        = ((serve handler httpRequest).header.get? "Set-Cookie").getD [] := by
  rw [Wrap_ok handler ctx request httpRequest hreq]
  refine ⟨?_, (responseOf (serve handler httpRequest)).Headers.nodup, ?_⟩
  · intro k
    show k ∈ (responseOf (serve handler httpRequest)).Headers.keys ↔ _
    rw [GoMap.mem_keys_iff, GoMap.mem_keys_iff, responseOf_headers]
    by_cases hk : k = "Set-Cookie"
    · simp [hk]
    · simp [hk]
  · exact responseOf_cookies _

/-- Witness of C4: a sink with the keys `Set-Cookie` and `X-Foo`. -/
theorem header_keys_split_witness :
    (∀ k, k ∈ (Wrap cookieHandler [] (sampleEvent "GET" [] false)).1.Headers.keys ↔
        (k ∈ (serve cookieHandler (sampleRequest "GET" [] false .noBody 0)).header.keys
          ∧ k ≠ "Set-Cookie")) ∧
      (Wrap cookieHandler [] (sampleEvent "GET" [] false)).1.Headers.keys.Nodup ∧
      (Wrap cookieHandler [] (sampleEvent "GET" [] false)).1.Cookies
        = ((serve cookieHandler (sampleRequest "GET" [] false .noBody 0)).header.get?
            "Set-Cookie").getD [] :=
  header_keys_split cookieHandler [] (sampleEvent "GET" [] false)
    (sampleRequest "GET" [] false .noBody 0) (by rfl)


/-! ## Lemmas on request construction and on running a handler -/

theorem foldl_add_fields (l : List (String × String)) (r : Request) :
    let r2 := l.foldl (fun r kv => { r with Header := r.Header.Add kv.1 kv.2 }) r
    r2.ctx = r.ctx ∧ r2.Method = r.Method ∧ r2.URL = r.URL ∧ r2.Body = r.Body ∧
      r2.ContentLength = r.ContentLength ∧ r2.Host = r.Host ∧
      r2.RemoteAddr = r.RemoteAddr := by
  induction l generalizing r with
  | nil => simp
  | cons e t ih =>
    simp only [List.foldl_cons]
    exact ih _

theorem fillRequest_fields (r : Request) (request : LambdaFunctionURLRequest) :
    (fillRequest r request).ctx = r.ctx ∧ (fillRequest r request).Method = r.Method ∧
      (fillRequest r request).URL = r.URL ∧ (fillRequest r request).Body = r.Body ∧
      (fillRequest r request).ContentLength = r.ContentLength ∧
      (fillRequest r request).Host = r.Host ∧
      (fillRequest r request).RemoteAddr = request.RequestContext.HTTP.SourceIP :=
  foldl_add_fields request.Headers.entries
    { r with RemoteAddr := request.RequestContext.HTTP.SourceIP }

theorem NewRequestWithContext_ok (ctx : Context) (method url : String) (body : BodyReader)
    (r : Request) (h : NewRequestWithContext ctx method url body = .ok r) :
    r.ctx = ctx ∧ r.Method = (if method = "" then "GET" else method) ∧
      validMethod (if method = "" then "GET" else method) = true ∧
      r.Header = GoMap.empty ∧
      (∀ sched, r.Body.readAll sched = body.readAll sched) ∧
      (∀ s, body = BodyReader.base64Decoder s → r.Body = BodyReader.base64Decoder s) := by
  unfold NewRequestWithContext at h
  simp only at h
  by_cases hv : validMethod (if method = "" then "GET" else method) = true
  · simp only [hv, Bool.not_true, Bool.false_eq_true, if_false] at h
    cases hu : URL.Parse url with
    | error e => rw [hu] at h; cases h
    | ok u =>
      rw [hu] at h
      simp only [Except.ok.injEq] at h
      subst h
      refine ⟨rfl, rfl, hv, rfl, ?_, ?_⟩
      · intro sched
        cases body with
        | stringsReader s =>
          cases s with
          | nil => rfl
          | cons a t => rfl
        | base64Decoder s => rfl
        | noBody => rfl
      · intro s hs
        subst hs
        rfl
  · simp only [Bool.not_eq_true] at hv
    simp only [hv, Bool.not_false, if_true] at h
    cases h

theorem httpRequestOf_ok (ctx : Context) (request : LambdaFunctionURLRequest)
    (httpRequest : Request) (h : httpRequestOf ctx request = .ok httpRequest) :
    ∃ r, NewRequestWithContext (requestContext ctx request)
        request.RequestContext.HTTP.Method (requestURL request) (requestBody request) = .ok r
      ∧ httpRequest = fillRequest r request := by
  unfold httpRequestOf at h
  split at h
  · cases h
  · rename_i r hr
    simp only [Except.ok.injEq] at h
    exact ⟨r, hr, h.symm⟩

theorem HandlerProg.run_eq_runOps {σ : Type} (W : GoWriter σ) (prog : HandlerProg)
    (w : httpResponseWriter σ) : prog.run W w = runOps W (prog.calls W w) w := by
  induction prog generalizing w with
  | done => rfl
  | header f next ih => exact ih _
  | write p next ih => exact ih _ _ _
  | writeHeader c next ih => exact ih _

theorem runOps_append {σ : Type} (W : GoWriter σ) (a b : List SinkOp)
    (w : httpResponseWriter σ) : runOps W (a ++ b) w = runOps W b (runOps W a w) := by
  unfold runOps
  rw [List.foldl_append]

theorem Write_code {σ : Type} (W : GoWriter σ) (w : httpResponseWriter σ) (p : List Byte) :
    (w.Write W p).2.code = w.code ∧ (w.Write W p).2.header = w.header := by
  unfold httpResponseWriter.Write
  split <;> exact ⟨rfl, rfl⟩

theorem runOps_code_unchanged {σ : Type} (W : GoWriter σ) (ops : List SinkOp)
    (w : httpResponseWriter σ) (h : ∀ op ∈ ops, op.isWriteHeader = false) :
    (runOps W ops w).code = w.code := by
  induction ops generalizing w with
  | nil => rfl
  | cons op t ih =>
    have ht : ∀ o ∈ t, o.isWriteHeader = false := fun o ho => h o (List.mem_cons_of_mem _ ho)
    have hop := h op (List.mem_cons_self _ _)
    show (runOps W t (SinkOp.apply W w op)).code = w.code
    rw [ih _ ht]
    cases op with
    | header f => rfl
    | write p => exact (Write_code W w p).1
    | writeHeader c => simp [SinkOp.isWriteHeader] at hop

/-! ## The event in the context (C5) -/

/-- C5, what the code does: `Wrap` stores the event in the context as a value of
type `events.LambdaFunctionURLRequest`, and `RequestFromContext` asserts the type
`*events.LambdaFunctionURLRequest`; on the context of the request given to the
handler it returns nil and false, for every event.  Had `Wrap` stored a pointer,
the accessor would return the event and true. -/
theorem RequestFromContext_of_handler_request (ctx : Context)
    (request : LambdaFunctionURLRequest) (httpRequest : Request)
    (hreq : httpRequestOf ctx request = .ok httpRequest) :
    RequestFromContext httpRequest.ctx = (none, false) ∧
      RequestFromContext
          (ctx.WithValue ContextKey.requestContextKey (ContextValue.requestPointer request))
        = (some request, true) := by
  obtain ⟨r, hr, hfill⟩ := httpRequestOf_ok ctx request httpRequest hreq
  have hctx : httpRequest.ctx = requestContext ctx request := by
    rw [hfill, (fillRequest_fields r request).1]
    exact (NewRequestWithContext_ok _ _ _ _ r hr).1
  rw [hctx]
  simp [RequestFromContext, requestContext, Context.WithValue, Context.Value]

/-- Witness of C5 at the event `GET https://api.example.com/items`. -/
theorem RequestFromContext_of_handler_request_witness :
    RequestFromContext (sampleRequest "GET" [] false .noBody 0).ctx = (none, false) ∧
      RequestFromContext
          (Context.WithValue [] ContextKey.requestContextKey
            (ContextValue.requestPointer (sampleEvent "GET" [] false)))
        = (some (sampleEvent "GET" [] false), true) :=
  RequestFromContext_of_handler_request [] (sampleEvent "GET" [] false)
    (sampleRequest "GET" [] false .noBody 0) (by rfl)

/-! ## Conversion failure (C6) -/

/-- C6, counterexample: the empty method is not a valid token, yet an event
with the empty method is served: the request has the method `GET`, the
response has status 200 and the header the handler set, and there is no
error. -/
theorem empty_method_is_served :
    validMethod "" = false ∧
      httpRequestOf [] (sampleEvent "" [] false)
        = .ok (sampleRequest "" [] false .noBody 0) ∧
      (sampleRequest "" [] false .noBody 0).Method = "GET" ∧
      (Wrap addTwiceHandler [] (sampleEvent "" [] false)).2 = none ∧
      (Wrap addTwiceHandler [] (sampleEvent "" [] false)).1.StatusCode = 200 ∧
      (Wrap addTwiceHandler [] (sampleEvent "" [] false)).1.Headers.get? "X-Foo"
        = some "1,2" :=
  ⟨by decide, by rfl, by decide, by decide, by decide, by decide⟩

/-- C6, amended: for an event whose method has a character that is not a
token character, `Wrap` returns the zero-value response (status 0, empty
body, no headers, no cookies) and a `RequestConvertionError` whose cause is
the error that `http.NewRequestWithContext` returned. -/
theorem invalid_method_is_conversion_error (handler : Handler) (ctx : Context)
    (request : LambdaFunctionURLRequest)
    (hbad : ∃ c ∈ request.RequestContext.HTTP.Method.toList, isTokenChar c = false) :
    NewRequestWithContext (requestContext ctx request) request.RequestContext.HTTP.Method
        (requestURL request) (requestBody request)
        = .error (GoError.invalidMethod request.RequestContext.HTTP.Method) ∧
      Wrap handler ctx request
        = (LambdaFunctionURLResponse.zero,
            some { Cause := GoError.invalidMethod request.RequestContext.HTTP.Method }) ∧
      (Wrap handler ctx request).1.StatusCode = 0 ∧
      (Wrap handler ctx request).1.Body = [] ∧
      (Wrap handler ctx request).1.Headers.entries = [] ∧
      (Wrap handler ctx request).1.Cookies = [] := by
  obtain ⟨c, hc, hct⟩ := hbad
  have hne : request.RequestContext.HTTP.Method ≠ "" := by
    intro h
    rw [h] at hc
    simp at hc
  have hinv : validMethod request.RequestContext.HTTP.Method = false := by
    unfold validMethod
    rw [Bool.and_eq_false_iff]
    right
    rw [List.all_eq_false]
    exact ⟨c, hc, by simp [hct]⟩
  have hnew : NewRequestWithContext (requestContext ctx request)
      request.RequestContext.HTTP.Method (requestURL request) (requestBody request)
      = .error (GoError.invalidMethod request.RequestContext.HTTP.Method) := by
    unfold NewRequestWithContext
    simp [hne, hinv]
  have hwrap : Wrap handler ctx request
      = (LambdaFunctionURLResponse.zero,
          some { Cause := GoError.invalidMethod request.RequestContext.HTTP.Method }) := by
    unfold Wrap httpRequestOf
    rw [hnew]
  refine ⟨hnew, hwrap, ?_, ?_, ?_, ?_⟩ <;> rw [hwrap] <;> rfl

/-- Witness of C6, amended: the method `GE T` has a space. -/
theorem invalid_method_is_conversion_error_witness :
    Wrap addTwiceHandler [] (sampleEvent "GE T" [] false)
      = (LambdaFunctionURLResponse.zero, some { Cause := GoError.invalidMethod "GE T" }) :=
  (invalid_method_is_conversion_error addTwiceHandler [] (sampleEvent "GE T" [] false)
    ⟨' ', by decide, by decide⟩).2.1

/-! ## The URL (C7) -/

/-- C7: the URL string that `Wrap` gives to `http.NewRequestWithContext` is
`https://` followed by the domain name and the raw path, and by `?` and the
raw query string when that is not empty; nothing is escaped. -/
theorem url_is_plain_concatenation (ctx : Context) (request : LambdaFunctionURLRequest) :
    requestURL request
        = (if request.RawQueryString = "" then
            "https://" ++ request.RequestContext.DomainName ++ request.RawPath
          else
            "https://" ++ request.RequestContext.DomainName ++ request.RawPath ++ "?"
              ++ request.RawQueryString) ∧
      httpRequestOf ctx request
        = (match NewRequestWithContext (requestContext ctx request)
              request.RequestContext.HTTP.Method (requestURL request) (requestBody request) with
          | .error err => .error err
          | .ok httpRequest => .ok (fillRequest httpRequest request)) ∧
      requestURL (sampleEvent "GET" [] false) = "https://api.example.com/items" ∧
      requestURL { sampleEvent "GET" [] false with RawQueryString := "id=1" }
        = "https://api.example.com/items?id=1" := by
  refine ⟨?_, rfl, by decide, by decide⟩
  unfold requestURL
  by_cases h : request.RawQueryString = "" <;> simp [h]

/-! ## The status code (C8, C9) -/

/-- C8: when request construction succeeds and the handler makes no call of
`WriteHeader`, whatever it writes and whatever headers it sets, the response
has the status code 200. -/
theorem default_status_is_200 (handler : Handler) (ctx : Context)
    (request : LambdaFunctionURLRequest) (httpRequest : Request)
    (hreq : httpRequestOf ctx request = .ok httpRequest)
    (hno : ∀ op ∈ (handler httpRequest).calls stringsBuilder (newHTTPResponseWriter []),
      op.isWriteHeader = false) :
    (Wrap handler ctx request).1.StatusCode = 200 ∧ (Wrap handler ctx request).2 = none := by
  rw [Wrap_ok handler ctx request httpRequest hreq]
  refine ⟨?_, rfl⟩
  show (responseOf (serve handler httpRequest)).StatusCode = 200
  rw [(responseOf_code _).1]
  unfold serve
  rw [HandlerProg.run_eq_runOps, runOps_code_unchanged _ _ _ hno]
  rfl

/-- Witness of C8: a handler that writes a body and sets headers and cookies. -/
theorem default_status_is_200_witness :
    (Wrap cookieHandler [] (sampleEvent "GET" [] false)).1.StatusCode = 200 ∧
      (Wrap cookieHandler [] (sampleEvent "GET" [] false)).2 = none :=
  default_status_is_200 cookieHandler [] (sampleEvent "GET" [] false)
    (sampleRequest "GET" [] false .noBody 0) (by rfl) (by decide)

/-- C9: after a sequence of calls on the sink whose last `WriteHeader` call
has the argument `c`, the code of the sink is `c`, whatever calls come before
and whatever calls other than `WriteHeader` come after, and so is the status
code of the response of a handler that makes these calls; `WriteHeader` after
a `Write` sets the code as well, and a second `WriteHeader(c)` changes
nothing. -/
theorem last_WriteHeader_wins {σ : Type} (W : GoWriter σ) (w : httpResponseWriter σ)
    (before after : List SinkOp) (c : Int)
    (hafter : ∀ op ∈ after, op.isWriteHeader = false) :
    (runOps W (before ++ SinkOp.writeHeader c :: after) w).code = c ∧
      (∀ (handler : Handler) (ctx : Context) (request : LambdaFunctionURLRequest)
          (httpRequest : Request), httpRequestOf ctx request = .ok httpRequest →
          (handler httpRequest).calls stringsBuilder (newHTTPResponseWriter [])
            = before ++ SinkOp.writeHeader c :: after →
          (Wrap handler ctx request).1.StatusCode = c) ∧
      (∀ p : List Byte, ((w.Write W p).2.WriteHeader c).code = c) ∧
      (w.WriteHeader c).WriteHeader c = w.WriteHeader c := by
  have key : ∀ (τ : Type) (V : GoWriter τ) (v : httpResponseWriter τ),
      (runOps V (before ++ SinkOp.writeHeader c :: after) v).code = c := by
    intro τ V v
    rw [runOps_append]
    show (runOps V after (SinkOp.apply V (runOps V before v) (SinkOp.writeHeader c))).code = c
    rw [runOps_code_unchanged _ _ _ hafter]
    rfl
  refine ⟨key σ W w, ?_, fun _ => rfl, rfl⟩
  intro handler ctx request httpRequest hreq hcalls
  rw [Wrap_ok handler ctx request httpRequest hreq]
  show (responseOf (serve handler httpRequest)).StatusCode = c
  rw [(responseOf_code _).1]
  unfold serve
  rw [HandlerProg.run_eq_runOps, hcalls]
  exact key _ _ _

/-- Witness of C9: status 404 set after a first write, then 201, then a second
write: the response has status 201. -/
theorem last_WriteHeader_wins_witness :
    (Wrap statusHandler [] (sampleEvent "GET" [] false)).1.StatusCode = 201 :=
  (last_WriteHeader_wins stringsBuilder (newHTTPResponseWriter [])
    [SinkOp.write (bytesOf "a"), SinkOp.writeHeader 404,
      SinkOp.header (fun h => h.Set "X-Foo" "1")]
    [SinkOp.write (bytesOf "b")] 201 (by decide)).2.1 statusHandler []
    (sampleEvent "GET" [] false) (sampleRequest "GET" [] false .noBody 0) (by rfl) (by rfl)


/-! ## Lemmas on base64 -/

theorem and_0x3F (x : Nat) : x &&& 0x3F = x % 64 :=
  Nat.and_pow_two_sub_one_eq_mod x 6

theorem or_three_bytes (a b c : Nat) (hb : b < 256) (hc : c < 256) :
    a <<< 16 ||| b <<< 8 ||| c = a * 65536 + b * 256 + c := by
  have h1 : a <<< 16 ||| b <<< 8 = a * 65536 + b * 256 := by
    rw [Nat.shiftLeft_eq, Nat.shiftLeft_eq]
    have := Nat.mul_add_lt_is_or (i := 16) (b := b * 2 ^ 8) (by omega) a
    rw [Nat.mul_comm (2 ^ 16) a] at this
    rw [← this]
    norm_num
  rw [h1]
  have h2 := Nat.mul_add_lt_is_or (i := 8) (b := c) (by omega) (a * 256 + b)
  have h3 : 2 ^ 8 * (a * 256 + b) = a * 65536 + b * 256 := by omega
  rw [h3] at h2
  exact h2.symm

theorem or_four_sextets (d0 d1 d2 d3 : Nat) (h1 : d1 < 64) (h2 : d2 < 64) (h3 : d3 < 64) :
    d0 <<< 18 ||| d1 <<< 12 ||| d2 <<< 6 ||| d3
      = d0 * 262144 + d1 * 4096 + d2 * 64 + d3 := by
  have e1 : d0 <<< 18 ||| d1 <<< 12 = d0 * 262144 + d1 * 4096 := by
    rw [Nat.shiftLeft_eq, Nat.shiftLeft_eq]
    have := Nat.mul_add_lt_is_or (i := 18) (b := d1 * 2 ^ 12) (by omega) d0
    rw [Nat.mul_comm (2 ^ 18) d0] at this
    rw [← this]
    norm_num
  have e2 : d0 * 262144 + d1 * 4096 ||| d2 <<< 6 = d0 * 262144 + d1 * 4096 + d2 * 64 := by
    rw [Nat.shiftLeft_eq]
    have := Nat.mul_add_lt_is_or (i := 12) (b := d2 * 2 ^ 6) (by omega) (d0 * 64 + d1)
    have e : 2 ^ 12 * (d0 * 64 + d1) = d0 * 262144 + d1 * 4096 := by omega
    rw [e] at this
    rw [← this]
    norm_num
  have e3 := Nat.mul_add_lt_is_or (i := 6) (b := d3) (by omega) (d0 * 4096 + d1 * 64 + d2)
  have e4 : 2 ^ 6 * (d0 * 4096 + d1 * 64 + d2) = d0 * 262144 + d1 * 4096 + d2 * 64 := by
    omega
  rw [e4] at e3
  rw [e1, e2, ← e3]

set_option maxRecDepth 100000 in
theorem encodeByte_facts :
    ∀ i, i < 64 → decodeMap (encodeByte i) = i ∧ encodeByte i ≠ 13 ∧ encodeByte i ≠ 10 := by
  decide

theorem decodeMap_padChar : decodeMap padChar = 0xFF := by decide

theorem quantum_roundtrip (a b c : Byte) :
    let val := a.val <<< 16 ||| b.val <<< 8 ||| c.val
    quantumBytes (val >>> 18 &&& 0x3F) (val >>> 12 &&& 0x3F) (val >>> 6 &&& 0x3F)
      (val &&& 0x3F) 4 = [a, b, c] := by
  intro val
  have ha := a.isLt
  have hb := b.isLt
  have hc := c.isLt
  have hval : val = a.val * 65536 + b.val * 256 + c.val := or_three_bytes _ _ _ hb hc
  unfold quantumBytes
  simp only [and_0x3F, Nat.shiftRight_eq_div_pow]
  rw [or_four_sextets _ _ _ _ (Nat.mod_lt _ (by norm_num)) (Nat.mod_lt _ (by norm_num))
    (Nat.mod_lt _ (by norm_num))]
  have hsum : val / 2 ^ 18 % 64 * 262144 + val / 2 ^ 12 % 64 * 4096 + val / 2 ^ 6 % 64 * 64
      + val % 64 = val := by omega
  rw [hsum]
  simp only [List.take, Nat.reduceSub]
  have e0 : (Fin.ofNat (val / 2 ^ 16) : Byte) = a := by
    apply Fin.ext
    show val / 2 ^ 16 % 256 = a.val
    omega
  have e1 : (Fin.ofNat (val / 2 ^ 8) : Byte) = b := by
    apply Fin.ext
    show val / 2 ^ 8 % 256 = b.val
    omega
  have e2 : (Fin.ofNat val : Byte) = c := by
    apply Fin.ext
    show val % 256 = c.val
    omega
  rw [e0, e1, e2]

theorem quantum_roundtrip_two (a b : Byte) :
    let val := a.val <<< 16 ||| b.val <<< 8
    quantumBytes (val >>> 18 &&& 0x3F) (val >>> 12 &&& 0x3F) (val >>> 6 &&& 0x3F) 0 3
      = [a, b] := by
  intro val
  have ha := a.isLt
  have hb := b.isLt
  have hval : val = a.val * 65536 + b.val * 256 := by
    have := or_three_bytes a.val b.val 0 hb (by norm_num)
    simpa using this
  unfold quantumBytes
  simp only [and_0x3F, Nat.shiftRight_eq_div_pow]
  rw [or_four_sextets _ _ _ _ (Nat.mod_lt _ (by norm_num)) (Nat.mod_lt _ (by norm_num))
    (by norm_num)]
  have hsum : val / 2 ^ 18 % 64 * 262144 + val / 2 ^ 12 % 64 * 4096 + val / 2 ^ 6 % 64 * 64
      + 0 = val := by omega
  rw [hsum]
  simp only [List.take, Nat.reduceSub]
  have e0 : (Fin.ofNat (val / 2 ^ 16) : Byte) = a := by
    apply Fin.ext
    show val / 2 ^ 16 % 256 = a.val
    omega
  have e1 : (Fin.ofNat (val / 2 ^ 8) : Byte) = b := by
    apply Fin.ext
    show val / 2 ^ 8 % 256 = b.val
    omega
  rw [e0, e1]

theorem quantum_roundtrip_one (a : Byte) :
    let val := a.val <<< 16
    quantumBytes (val >>> 18 &&& 0x3F) (val >>> 12 &&& 0x3F) 0 0 2 = [a] := by
  intro val
  have ha := a.isLt
  have hval : val = a.val * 65536 := by
    show a.val <<< 16 = a.val * 65536
    rw [Nat.shiftLeft_eq]
  unfold quantumBytes
  simp only [and_0x3F, Nat.shiftRight_eq_div_pow]
  rw [or_four_sextets _ _ _ _ (Nat.mod_lt _ (by norm_num)) (by norm_num) (by norm_num)]
  have hsum : val / 2 ^ 18 % 64 * 262144 + val / 2 ^ 12 % 64 * 4096 + 0 * 64 + 0 = val := by
    omega
  rw [hsum]
  simp only [List.take, Nat.reduceSub]
  have e0 : (Fin.ofNat (val / 2 ^ 16) : Byte) = a := by
    apply Fin.ext
    show val / 2 ^ 16 % 256 = a.val
    omega
  rw [e0]

theorem decodeQuantum_full (s0 s1 s2 s3 : Nat) (h0 : s0 < 64) (h1 : s1 < 64) (h2 : s2 < 64)
    (h3 : s3 < 64) (more : Bool) :
    decodeQuantum (encodeByte s0) (encodeByte s1) (encodeByte s2) (encodeByte s3) more
      = (quantumBytes s0 s1 s2 s3 4, none) := by
  unfold decodeQuantum
  rw [(encodeByte_facts s0 h0).1, (encodeByte_facts s1 h1).1, (encodeByte_facts s2 h2).1,
    (encodeByte_facts s3 h3).1]
  have e0 : ¬ (s0 = 0xFF ∨ s1 = 0xFF) := by omega
  have e2 : ¬ s2 = 0xFF := by omega
  have e3 : ¬ s3 = 0xFF := by omega
  rw [if_neg e0, if_neg e2, if_neg e3]

theorem decodeQuantum_pad_one (s0 s1 s2 : Nat) (h0 : s0 < 64) (h1 : s1 < 64) (h2 : s2 < 64) :
    decodeQuantum (encodeByte s0) (encodeByte s1) (encodeByte s2) padChar false
      = (quantumBytes s0 s1 s2 0 3, none) := by
  unfold decodeQuantum
  rw [(encodeByte_facts s0 h0).1, (encodeByte_facts s1 h1).1, (encodeByte_facts s2 h2).1,
    decodeMap_padChar]
  have e0 : ¬ (s0 = 0xFF ∨ s1 = 0xFF) := by omega
  have e2 : ¬ s2 = 0xFF := by omega
  rw [if_neg e0, if_neg e2, if_pos rfl, if_neg (fun h => h rfl)]
  rfl

theorem decodeQuantum_pad_two (s0 s1 : Nat) (h0 : s0 < 64) (h1 : s1 < 64) :
    decodeQuantum (encodeByte s0) (encodeByte s1) padChar padChar false
      = (quantumBytes s0 s1 0 0 2, none) := by
  unfold decodeQuantum
  rw [(encodeByte_facts s0 h0).1, (encodeByte_facts s1 h1).1, decodeMap_padChar]
  have e0 : ¬ (s0 = 0xFF ∨ s1 = 0xFF) := by omega
  have e1 : ¬ (padChar ≠ padChar ∨ padChar ≠ padChar) := by simp
  rw [if_neg e0, if_pos rfl, if_neg e1]
  rfl

theorem sextet_lt (x : Nat) : x &&& 0x3F < 64 := by
  rw [and_0x3F]
  exact Nat.mod_lt _ (by norm_num)


theorem stdEncode_three (a b c : Byte) (t : List Byte) :
    stdEncode (a :: b :: c :: t) =
      encodeByte ((a.val <<< 16 ||| b.val <<< 8 ||| c.val) >>> 18 &&& 0x3F)
        :: encodeByte ((a.val <<< 16 ||| b.val <<< 8 ||| c.val) >>> 12 &&& 0x3F)
        :: encodeByte ((a.val <<< 16 ||| b.val <<< 8 ||| c.val) >>> 6 &&& 0x3F)
        :: encodeByte ((a.val <<< 16 ||| b.val <<< 8 ||| c.val) &&& 0x3F) :: stdEncode t := by
  rw [stdEncode]

theorem stdEncode_two (a b : Byte) :
    stdEncode [a, b] =
      [encodeByte ((a.val <<< 16 ||| b.val <<< 8) >>> 18 &&& 0x3F),
        encodeByte ((a.val <<< 16 ||| b.val <<< 8) >>> 12 &&& 0x3F),
        encodeByte ((a.val <<< 16 ||| b.val <<< 8) >>> 6 &&& 0x3F), padChar] := by
  rw [stdEncode]

theorem stdEncode_one (a : Byte) :
    stdEncode [a] =
      [encodeByte ((a.val <<< 16) >>> 18 &&& 0x3F),
        encodeByte ((a.val <<< 16) >>> 12 &&& 0x3F), padChar, padChar] := by
  rw [stdEncode]

theorem decodeChunk_four (c0 c1 c2 c3 : Byte) (rest : List Byte) :
    decodeChunk (c0 :: c1 :: c2 :: c3 :: rest) =
      match decodeQuantum c0 c1 c2 c3 (!rest.isEmpty) with
      | (out, some e) => (out, some e)
      | (out, none) => (out ++ (decodeChunk rest).1, (decodeChunk rest).2) := by
  rw [decodeChunk]

theorem decodeChunk_stdEncode (b : List Byte) : decodeChunk (stdEncode b) = (b, none) := by
  induction b using stdEncode.induct with
  | case1 => rfl
  | case2 a b c t ih =>
    rw [stdEncode_three, decodeChunk_four,
      decodeQuantum_full _ _ _ _ (sextet_lt _) (sextet_lt _) (sextet_lt _) (sextet_lt _)]
    simp only [ih]
    rw [quantum_roundtrip a b c]
    rfl
  | case3 a b =>
    rw [stdEncode_two, decodeChunk_four]
    simp only [List.isEmpty_nil, Bool.not_true]
    rw [decodeQuantum_pad_one _ _ _ (sextet_lt _) (sextet_lt _) (sextet_lt _)]
    simp only
    rw [quantum_roundtrip_two a b]
    rfl
  | case4 a =>
    rw [stdEncode_one, decodeChunk_four]
    simp only [List.isEmpty_nil, Bool.not_true]
    rw [decodeQuantum_pad_two _ _ (sextet_lt _) (sextet_lt _)]
    simp only
    rw [quantum_roundtrip_one a]
    rfl

theorem stdEncode_no_newline (b : List Byte) :
    ∀ x ∈ stdEncode b, decide (x ≠ 13 ∧ x ≠ 10) = true := by
  have hp : padChar ≠ 13 ∧ padChar ≠ 10 := by decide
  have he : ∀ v, encodeByte (v &&& 0x3F) ≠ 13 ∧ encodeByte (v &&& 0x3F) ≠ 10 :=
    fun v => (encodeByte_facts _ (sextet_lt v)).2
  induction b using stdEncode.induct with
  | case1 => simp [stdEncode]
  | case2 a b c t ih =>
    rw [stdEncode_three]
    intro x hx
    simp only [List.mem_cons] at hx
    rcases hx with h | h | h | h | h
    · rw [h]; exact decide_eq_true (he _)
    · rw [h]; exact decide_eq_true (he _)
    · rw [h]; exact decide_eq_true (he _)
    · rw [h]; exact decide_eq_true (he _)
    · exact ih x h
  | case3 a b =>
    rw [stdEncode_two]
    intro x hx
    simp only [List.mem_cons, List.mem_singleton, List.not_mem_nil, or_false] at hx
    rcases hx with h | h | h | h
    · rw [h]; exact decide_eq_true (he _)
    · rw [h]; exact decide_eq_true (he _)
    · rw [h]; exact decide_eq_true (he _)
    · rw [h]; exact decide_eq_true hp
  | case4 a =>
    rw [stdEncode_one]
    intro x hx
    simp only [List.mem_cons, List.mem_singleton, List.not_mem_nil, or_false] at hx
    rcases hx with h | h | h | h
    · rw [h]; exact decide_eq_true (he _)
    · rw [h]; exact decide_eq_true (he _)
    · rw [h]; exact decide_eq_true hp
    · rw [h]; exact decide_eq_true hp

theorem filterNewlines_stdEncode (b : List Byte) :
    filterNewlines (stdEncode b) = stdEncode b := by
  unfold filterNewlines
  rw [List.filter_eq_self]
  exact stdEncode_no_newline b

theorem stdEncode_length (b : List Byte) :
    (stdEncode b).length = 4 * ((b.length + 2) / 3) := by
  induction b using stdEncode.induct with
  | case1 => rfl
  | case2 a b c t ih =>
    rw [stdEncode_three]
    simp only [List.length_cons, ih]
    omega
  | case3 a b => rw [stdEncode_two]; simp
  | case4 a => rw [stdEncode_one]; simp

theorem stdEncode_append (b1 b2 : List Byte) (h : b1.length % 3 = 0) :
    stdEncode (b1 ++ b2) = stdEncode b1 ++ stdEncode b2 := by
  induction b1 using stdEncode.induct with
  | case1 => rfl
  | case2 a b c t ih =>
    have ht : t.length % 3 = 0 := by
      simp only [List.length_cons] at h
      omega
    rw [List.cons_append, List.cons_append, List.cons_append, stdEncode_three,
      stdEncode_three, ih ht]
    rfl
  | case3 a b => simp at h
  | case4 a => simp at h

theorem decodeLast_stdEncode (b : List Byte) : decodeLast (stdEncode b) = (b, none) := by
  unfold decodeLast
  have hl := stdEncode_length b
  have h1 : (stdEncode b).length / 4 * 4 = (stdEncode b).length := by omega
  have h2 : (stdEncode b).length % 4 = 0 := by omega
  rw [h1, List.take_length, decodeChunk_stdEncode]
  simp only [h2, if_true]

theorem decoderRead_stdEncode (sched : List Nat) (b : List Byte) :
    decoderRead sched (stdEncode b) = (b, none) := by
  induction sched generalizing b with
  | nil => exact decodeLast_stdEncode b
  | cons k sched ih =>
    unfold decoderRead
    split
    · exact decodeLast_stdEncode b
    · rename_i hk
      have hl := stdEncode_length b
      have hb : 3 * (k + 1) < b.length := by omega
      have hsplit : b = b.take (3 * (k + 1)) ++ b.drop (3 * (k + 1)) :=
        (List.take_append_drop _ _).symm
      have htl : (b.take (3 * (k + 1))).length = 3 * (k + 1) := by
        rw [List.length_take]
        omega
      have henc : stdEncode b
          = stdEncode (b.take (3 * (k + 1))) ++ stdEncode (b.drop (3 * (k + 1))) := by
        conv_lhs => rw [hsplit]
        exact stdEncode_append _ _ (by omega)
      have hel : (stdEncode (b.take (3 * (k + 1)))).length = 4 * (k + 1) := by
        rw [stdEncode_length, htl]
        omega
      have htake : (stdEncode b).take (4 * (k + 1)) = stdEncode (b.take (3 * (k + 1))) := by
        rw [henc, ← hel, List.take_left']
        rfl
      have hdrop : (stdEncode b).drop (4 * (k + 1)) = stdEncode (b.drop (3 * (k + 1))) := by
        rw [henc, ← hel, List.drop_left']
        rfl
      rw [htake, hdrop, decodeChunk_stdEncode, ih]
      simp only
      rw [← hsplit]

/-! ## The body of a base64 event (C10) -/

/-- C10: for every byte string `b`, an event flagged as base64 whose body is
the padded standard encoding of `b` gives the handler a request whose body,
read to the end, is `b`, with no read error, however the reads cut the
input into chunks. -/
theorem base64_body_reads_decoded (ctx : Context) (request : LambdaFunctionURLRequest)
    (httpRequest : Request) (b : List Byte) (sched : List Nat)
    (hflag : request.IsBase64Encoded = true) (hbody : request.Body = stdEncode b)
    (hreq : httpRequestOf ctx request = .ok httpRequest) :
    httpRequest.Body.readAll sched = (b, none) ∧
      httpRequest.Body = BodyReader.base64Decoder request.Body := by
  obtain ⟨r, hr, hfill⟩ := httpRequestOf_ok ctx request httpRequest hreq
  have hdec : requestBody request = BodyReader.base64Decoder request.Body := by
    unfold requestBody
    rw [if_pos hflag]
  have hrb : r.Body = BodyReader.base64Decoder request.Body := by
    exact (NewRequestWithContext_ok _ _ _ _ r hr).2.2.2.2.2 _ hdec
  have hb : httpRequest.Body = BodyReader.base64Decoder request.Body := by
    rw [hfill, (fillRequest_fields r request).2.2.2.1, hrb]
  refine ⟨?_, hb⟩
  rw [hb, hbody]
  show decoderRead sched (filterNewlines (stdEncode b)) = (b, none)
  rw [filterNewlines_stdEncode, decoderRead_stdEncode]

/-- Witness of C10: the body `aGVsbG8gd29ybGQ=` is read as `hello world`, the
first chunk being of one quantum. -/
theorem base64_body_reads_decoded_witness :
    (sampleRequest "GET" (bytesOf "aGVsbG8gd29ybGQ=") true
        (.base64Decoder (bytesOf "aGVsbG8gd29ybGQ=")) 0).Body.readAll [0]
      = (bytesOf "hello world", none) :=
  (base64_body_reads_decoded [] (sampleEvent "GET" (bytesOf "aGVsbG8gd29ybGQ=") true)
    (sampleRequest "GET" (bytesOf "aGVsbG8gd29ybGQ=") true
      (.base64Decoder (bytesOf "aGVsbG8gd29ybGQ=")) 0)
    (bytesOf "hello world") [0] (by rfl) (by decide) (by rfl)).1

/-! ## The body of a plain event (C11) -/

/-- C11: for an event that is not flagged as base64 and for which request
construction succeeds, the body of the request given to the handler, read to
the end, is the body of the event byte for byte, with no read error. -/
theorem plain_body_reads_verbatim (ctx : Context) (request : LambdaFunctionURLRequest)
    (httpRequest : Request) (sched : List Nat)
    (hflag : request.IsBase64Encoded = false)
    (hreq : httpRequestOf ctx request = .ok httpRequest) :
    httpRequest.Body.readAll sched = (request.Body, none) := by
  obtain ⟨r, hr, hfill⟩ := httpRequestOf_ok ctx request httpRequest hreq
  rw [hfill, (fillRequest_fields r request).2.2.2.1,
    (NewRequestWithContext_ok _ _ _ _ r hr).2.2.2.2.1 sched]
  unfold requestBody
  rw [hflag]
  rfl

/-- Witness of C11: the body `aGk=`, which is the base64 text of `hi`, is read
as the four bytes `aGk=`. -/
theorem plain_body_reads_verbatim_witness :
    (sampleRequest "GET" (bytesOf "aGk=") false (.stringsReader (bytesOf "aGk=")) 4).Body.readAll []
      = (bytesOf "aGk=", none) :=
  plain_body_reads_verbatim [] (sampleEvent "GET" (bytesOf "aGk=") false)
    (sampleRequest "GET" (bytesOf "aGk=") false (.stringsReader (bytesOf "aGk=")) 4) []
    (by rfl) (by rfl)

/-! ## The method `Write` (C12) -/

theorem Write_eq {σ : Type} (W : GoWriter σ) (w : httpResponseWriter σ) (p : List Byte) :
    w.Write W p
      = (((W.Write w.writer p).1.1, (W.Write w.writer p).1.2.map WriteResponseError.mk),
          { w with writer := (W.Write w.writer p).2 }) := by
  unfold httpResponseWriter.Write
  split <;> rename_i h <;> rw [h] <;> rfl

theorem writeAll_mirror {σ : Type} (W : GoWriter σ) (ps : List (List Byte))
    (w : httpResponseWriter σ) :
    (w.writeAll W ps).1
        = (W.writeAll w.writer ps).1.map (fun r => (r.1, r.2.map WriteResponseError.mk)) ∧
      (w.writeAll W ps).2
        = { w with writer := (W.writeAll w.writer ps).2 } := by
  induction ps generalizing w with
  | nil => exact ⟨rfl, rfl⟩
  | cons p ps ih =>
    obtain ⟨h1, h2⟩ := ih (w.Write W p).2
    have hw : (w.Write W p).2.writer = (W.Write w.writer p).2 := by rw [Write_eq]
    unfold httpResponseWriter.writeAll GoWriter.writeAll
    rw [h1, h2, hw]
    refine ⟨?_, ?_⟩
    · simp only [List.map_cons]
      rw [Write_eq]
    · rw [Write_eq]

/-- C12: for every underlying writer and every `p`, the method `Write` of the
sink calls `Write(p)` of the underlying writer once (the state of that writer
afterwards is the state after this one call, and a recording writer has
recorded `p` once more) and changes nothing else; it returns the count of
that call; its error is nil exactly when the error of that call is nil, and
otherwise is the `WriteResponseError` whose `Cause` and `Unwrap` are that
error.  A sequence of writes on the sink has the results of the same writes
on the underlying writer, call by call.  So when the call with index `n`
(counted from 0) is the first that the underlying writer refuses, it is the
first for which the sink reports an error, that error wraps the cause, and
the underlying writer has taken all the writes before it; a buffer that
refuses its third write shows it. -/
theorem Write_forwards_and_wraps {σ : Type} (W : GoWriter σ) (w : httpResponseWriter σ)
    (p : List Byte) (ps : List (List Byte)) :
    ((w.Write W p).2.writer = (W.Write w.writer p).2 ∧
        (w.Write W p).2.header = w.header ∧ (w.Write W p).2.code = w.code) ∧
      (∀ v : httpResponseWriter (σ × List (List Byte)),
        ((v.Write W.recording p).2.writer).2 = v.writer.2 ++ [p]) ∧
      (w.Write W p).1.1 = (W.Write w.writer p).1.1 ∧
      ((w.Write W p).1.2 = none ↔ (W.Write w.writer p).1.2 = none) ∧
      (∀ e, (W.Write w.writer p).1.2 = some e →
        (w.Write W p).1.2 = some { Cause := e } ∧
          (WriteResponseError.mk e).Cause = e ∧ (WriteResponseError.mk e).Unwrap = e) ∧
      ((w.writeAll W ps).1
          = (W.writeAll w.writer ps).1.map (fun r => (r.1, r.2.map WriteResponseError.mk)) ∧
        (w.writeAll W ps).2.writer = (W.writeAll w.writer ps).2) ∧
      (∀ (n b : Nat) (err : GoError),
        (W.writeAll w.writer ps).1[n]? = some (b, some err) →
        (∀ r ∈ (W.writeAll w.writer ps).1.take n, r.2 = none) →
        (w.writeAll W ps).1[n]? = some (b, some { Cause := err }) ∧
          (∀ r ∈ (w.writeAll W ps).1.take n, r.2 = none) ∧
          (w.writeAll W (ps.take n)).2.writer = (W.writeAll w.writer (ps.take n)).2) ∧
      (((newHTTPResponseWriter (([] : List Byte), 0)).writeAll
            (failingBuilder 3 (GoError.other "full"))
            [bytesOf "ab", bytesOf "c", bytesOf "de", bytesOf "f"]).1
          = [(2, none), (1, none), (0, some { Cause := GoError.other "full" }), (1, none)] ∧
        ((newHTTPResponseWriter (([] : List Byte), 0)).writeAll
            (failingBuilder 3 (GoError.other "full"))
            [bytesOf "ab", bytesOf "c"]).2.writer = (bytesOf "abc", 2) ∧
        ((newHTTPResponseWriter ([] : List Byte)).writeAll stringsBuilder
            [bytesOf "ab", bytesOf "c"]).1 = [(2, none), (1, none)]) := by
  refine ⟨?_, ?_, ?_, ?_, ?_, ?_, ?_, ⟨by decide, by decide, by decide⟩⟩
  · rw [Write_eq]
    exact ⟨rfl, rfl, rfl⟩
  · intro v
    rw [Write_eq]
    rfl
  · rw [Write_eq]
  · rw [Write_eq]
    cases (W.Write w.writer p).1.2 <;> simp
  · intro e he
    refine ⟨?_, rfl, rfl⟩
    rw [Write_eq]
    show Option.map WriteResponseError.mk (W.Write w.writer p).1.2 = _
    rw [he]
    rfl
  · refine ⟨(writeAll_mirror W ps w).1, ?_⟩
    rw [(writeAll_mirror W ps w).2]
  · intro n b err hfail hfirst
    refine ⟨?_, ?_, ?_⟩
    · rw [(writeAll_mirror W ps w).1, List.getElem?_map, hfail]
      rfl
    · intro r hr
      rw [(writeAll_mirror W ps w).1, ← List.map_take, List.mem_map] at hr
      obtain ⟨u, hu, hur⟩ := hr
      rw [← hur]
      simp only [hfirst u hu, Option.map_none']
    · rw [(writeAll_mirror W (ps.take n) w).2]

/-- Witness of C12: a buffer that refuses its third write.  The third `Write`
of the sink returns the count 0 and the error that wraps the cause, the two
writes before it report no error, and the buffer holds their bytes. -/
theorem Write_forwards_and_wraps_witness :
    ((newHTTPResponseWriter (([] : List Byte), 0)).writeAll
          (failingBuilder 3 (GoError.other "full"))
          [bytesOf "ab", bytesOf "c", bytesOf "de", bytesOf "f"]).1[2]?
        = some (0, some { Cause := GoError.other "full" }) ∧
      (∀ r ∈ ((newHTTPResponseWriter (([] : List Byte), 0)).writeAll
          (failingBuilder 3 (GoError.other "full"))
          [bytesOf "ab", bytesOf "c", bytesOf "de", bytesOf "f"]).1.take 2, r.2 = none) ∧
      ((newHTTPResponseWriter (([] : List Byte), 0)).writeAll
          (failingBuilder 3 (GoError.other "full"))
          ([bytesOf "ab", bytesOf "c", bytesOf "de", bytesOf "f"].take 2)).2.writer
        = (bytesOf "abc", 2) :=
  (Write_forwards_and_wraps (failingBuilder 3 (GoError.other "full"))
    (newHTTPResponseWriter (([] : List Byte), 0)) (bytesOf "x")
    [bytesOf "ab", bytesOf "c", bytesOf "de", bytesOf "f"]).2.2.2.2.2.2.1 2 0
    (GoError.other "full") (by decide) (by decide)

/-! ## The body of the response and writes inside `Wrap` (C13, C16) -/

theorem Write_stringsBuilder (w : httpResponseWriter (List Byte)) (p : List Byte) :
    w.Write stringsBuilder p = ((p.length, none), { w with writer := w.writer ++ p }) := by
  rw [Write_eq]
  rfl

theorem writesOf_append (a b : List SinkOp) : writesOf (a ++ b) = writesOf a ++ writesOf b := by
  induction a with
  | nil => rfl
  | cons op t ih =>
    cases op with
    | header f => exact ih
    | write p =>
      show p :: writesOf (t ++ b) = p :: writesOf t ++ writesOf b
      rw [ih]
      rfl
    | writeHeader c => exact ih

theorem runOps_writer (ops : List SinkOp) (w : httpResponseWriter (List Byte)) :
    (runOps stringsBuilder ops w).writer = w.writer ++ (writesOf ops).flatten := by
  induction ops generalizing w with
  | nil => simp [runOps, writesOf]
  | cons op t ih =>
    show (runOps stringsBuilder t (SinkOp.apply stringsBuilder w op)).writer = _
    rw [ih]
    cases op with
    | header f => rfl
    | write p =>
      show (w.Write stringsBuilder p).2.writer ++ _ = w.writer ++ (p :: writesOf t).flatten
      rw [Write_stringsBuilder, List.flatten_cons, List.append_assoc]
    | writeHeader c => rfl

theorem results_stringsBuilder (prog : HandlerProg) (w : httpResponseWriter (List Byte)) :
    prog.results stringsBuilder w
      = (writesOf (prog.calls stringsBuilder w)).map (fun p => (p.length, none)) := by
  induction prog generalizing w with
  | done => rfl
  | header f next ih => exact ih _
  | write p next ih =>
    show (w.Write stringsBuilder p).1 :: _ = _
    rw [ih]
    show _ = (p.length, none) :: _
    rw [Write_stringsBuilder]
  | writeHeader c next ih => exact ih _

/-- C13: the body of the response is the concatenation, in order, of the byte
slices of the `Write` calls that the handler made, whatever `WriteHeader`
calls and header changes stand between them; a `Write` appends its bytes to
the buffered body, `WriteHeader` and header changes leave it as it is, and
after further calls the body is the body before them followed by the bytes
of the further writes. -/
theorem body_is_concatenation_of_writes (handler : Handler) (ctx : Context)
    (request : LambdaFunctionURLRequest) (httpRequest : Request)
    (hreq : httpRequestOf ctx request = .ok httpRequest) :
    (Wrap handler ctx request).1.Body
        = (writesOf ((handler httpRequest).calls stringsBuilder
            (newHTTPResponseWriter []))).flatten ∧
      (∀ (w : httpResponseWriter (List Byte)) (p : List Byte),
        (w.Write stringsBuilder p).2.writer = w.writer ++ p) ∧
      (∀ (w : httpResponseWriter (List Byte)) (c : Int), (w.WriteHeader c).writer = w.writer) ∧
      (∀ (w : httpResponseWriter (List Byte)) (f : Header → Header),
        (w.mutateHeader f).writer = w.writer) ∧
      (∀ (w : httpResponseWriter (List Byte)) (ops more : List SinkOp),
        (runOps stringsBuilder (ops ++ more) w).writer
          = (runOps stringsBuilder ops w).writer ++ (writesOf more).flatten) := by
  refine ⟨?_, ?_, fun _ _ => rfl, fun _ _ => rfl, ?_⟩
  · rw [Wrap_ok handler ctx request httpRequest hreq]
    show (responseOf (serve handler httpRequest)).Body = _
    rw [(responseOf_code _).2]
    unfold serve
    rw [HandlerProg.run_eq_runOps, runOps_writer]
    rfl
  · intro w p
    rw [Write_stringsBuilder]
  · intro w ops more
    rw [runOps_append, runOps_writer]

/-- Witness of C13: the writes `a` and `b`, with two `WriteHeader` calls and a
header change between them, give the body `ab`. -/
theorem body_is_concatenation_of_writes_witness :
    (Wrap statusHandler [] (sampleEvent "GET" [] false)).1.Body = bytesOf "ab" :=
  (body_is_concatenation_of_writes statusHandler [] (sampleEvent "GET" [] false)
    (sampleRequest "GET" [] false .noBody 0) (by rfl)).1

/-- C16: on a `strings.Builder` the method `Write` of the sink returns
`len(p)` and no error, for every sink and every `p`, and appends all of `p`;
so every result that a handler run by `Wrap` sees of a `Write` call is
`len(p)` and nil, and a branch that a handler takes on a write error is never
run. -/
theorem Write_never_fails_in_Wrap (handler : Handler) (httpRequest : Request) :
    (∀ (w : httpResponseWriter (List Byte)) (p : List Byte),
        (w.Write stringsBuilder p).1 = (p.length, none) ∧
          (w.Write stringsBuilder p).2.writer = w.writer ++ p) ∧
      (handler httpRequest).results stringsBuilder (newHTTPResponseWriter [])
        = (writesOf ((handler httpRequest).calls stringsBuilder
            (newHTTPResponseWriter []))).map (fun p => (p.length, none)) ∧
      (∀ r ∈ (handler httpRequest).results stringsBuilder (newHTTPResponseWriter []),
        r.2 = none) ∧
      (Wrap errorCheckingHandler [] (sampleEvent "GET" [] false)).1.StatusCode = 200 ∧
      (Wrap errorCheckingHandler [] (sampleEvent "GET" [] false)).1.Body = bytesOf "ab" := by
  refine ⟨?_, results_stringsBuilder _ _, ?_, by decide, by decide⟩
  · intro w p
    rw [Write_stringsBuilder]
    exact ⟨rfl, rfl⟩
  · intro r hr
    rw [results_stringsBuilder, List.mem_map] at hr
    obtain ⟨p, _, hp⟩ := hr
    rw [← hp]

/-! ## The headers of the request (C14) -/

theorem get?_Add (h : Header) (k v K : String) :
    ((h.Add k v).get? K).getD []
      = (h.get? K).getD [] ++ (if CanonicalMIMEHeaderKey k = K then [v] else []) := by
  unfold Header.Add
  simp only
  rw [GoMap.get?_set]
  by_cases hk : CanonicalMIMEHeaderKey k = K
  · rw [if_pos hk, if_pos hk, hk]
    rfl
  · rw [if_neg hk, if_neg hk, List.append_nil]

theorem sum_assocSet_append (k v : String) (l : List (String × List String)) :
    ((assocSet k ((assocGet k l).getD [] ++ [v]) l).map (fun e => e.2.length)).sum
      = (l.map (fun e => e.2.length)).sum + 1 := by
  induction l with
  | nil => rfl
  | cons e t ih =>
    by_cases he : e.1 = k
    · simp only [assocSet, assocGet, he, if_true, Option.getD_some, List.map_cons,
        List.sum_cons, List.length_append, List.length_singleton]
      omega
    · simp only [assocSet, assocGet, he, if_false, List.map_cons, List.sum_cons]
      rw [ih]
      omega

theorem valueCount_Add (h : Header) (k v : String) :
    (h.Add k v).valueCount = h.valueCount + 1 :=
  sum_assocSet_append (CanonicalMIMEHeaderKey k) v h.entries

theorem foldl_Add_header (l : List (String × String)) (r : Request) :
    (l.foldl (fun r kv => { r with Header := r.Header.Add kv.1 kv.2 }) r).Header
      = l.foldl (fun h kv => h.Add kv.1 kv.2) r.Header := by
  induction l generalizing r with
  | nil => rfl
  | cons e t ih =>
    simp only [List.foldl_cons]
    rw [ih]

theorem foldl_Add_get (l : List (String × String)) (h : Header) (K : String) :
    ((l.foldl (fun h kv => h.Add kv.1 kv.2) h).get? K).getD []
      = (h.get? K).getD []
          ++ (l.filter (fun e => CanonicalMIMEHeaderKey e.1 = K)).map Prod.snd := by
  induction l generalizing h with
  | nil => simp
  | cons e t ih =>
    simp only [List.foldl_cons]
    rw [ih, get?_Add, List.append_assoc]
    by_cases hk : CanonicalMIMEHeaderKey e.1 = K
    · simp [List.filter_cons, hk]
    · simp [List.filter_cons, hk]

theorem foldl_Add_valueCount (l : List (String × String)) (h : Header) :
    (l.foldl (fun h kv => h.Add kv.1 kv.2) h).valueCount = h.valueCount + l.length := by
  induction l generalizing h with
  | nil => rfl
  | cons e t ih =>
    simp only [List.foldl_cons, List.length_cons]
    rw [ih, valueCount_Add]
    omega

theorem fillRequest_header (r : Request) (request : LambdaFunctionURLRequest) :
    (fillRequest r request).Header
      = request.Headers.entries.foldl (fun h kv => h.Add kv.1 kv.2) r.Header := by
  unfold fillRequest
  rw [foldl_Add_header]

/-- C14: when request construction succeeds, the request given to the handler
has, under every key `K`, the values of the entries of the event headers
whose key has the canonical form `K`, each value whole and in the order of
the enumeration; so the value of every entry is an element of the list under
the canonical form of its key, the request has as many header values as the
event has header entries, and its `RemoteAddr` is the source IP of the
event. -/
theorem one_header_value_per_entry (ctx : Context) (request : LambdaFunctionURLRequest)
    (httpRequest : Request) (hreq : httpRequestOf ctx request = .ok httpRequest) :
    (∀ K, (httpRequest.Header.get? K).getD []
        = (request.Headers.entries.filter
            (fun e => CanonicalMIMEHeaderKey e.1 = K)).map Prod.snd) ∧
      (∀ kv ∈ request.Headers.entries,
        kv.2 ∈ httpRequest.Header.Values kv.1) ∧
      httpRequest.Header.valueCount = request.Headers.entries.length ∧
      httpRequest.RemoteAddr = request.RequestContext.HTTP.SourceIP := by
  obtain ⟨r, hr, hfill⟩ := httpRequestOf_ok ctx request httpRequest hreq
  have hempty : r.Header = GoMap.empty := (NewRequestWithContext_ok _ _ _ _ r hr).2.2.2.1
  have hget : ∀ K, (httpRequest.Header.get? K).getD []
      = (request.Headers.entries.filter
          (fun e => CanonicalMIMEHeaderKey e.1 = K)).map Prod.snd := by
    intro K
    rw [hfill, fillRequest_header, foldl_Add_get, hempty]
    rfl
  refine ⟨hget, ?_, ?_, ?_⟩
  · intro kv hkv
    unfold Header.Values
    rw [hget, List.mem_map]
    exact ⟨kv, List.mem_filter.mpr ⟨hkv, by simp⟩, rfl⟩
  · rw [hfill, fillRequest_header, foldl_Add_valueCount, hempty]
    show 0 + _ = _
    omega
  · rw [hfill]
    exact (fillRequest_fields r request).2.2.2.2.2.2

/-- Witness of C14: the event headers `x-foo: a,b` and `X-FOO: c` are the two
values `a,b` and `c` under `X-Foo`. -/
theorem one_header_value_per_entry_witness :
    (twoHeaderRequest.Header.get? "X-Foo").getD [] = ["a,b", "c"] ∧
      twoHeaderRequest.Header.valueCount = 2 ∧
      twoHeaderRequest.RemoteAddr = "192.0.2.1" :=
  ⟨(one_header_value_per_entry [] twoHeaderEvent twoHeaderRequest (by rfl)).1 "X-Foo",
    (one_header_value_per_entry [] twoHeaderEvent twoHeaderRequest (by rfl)).2.2.1,
    (one_header_value_per_entry [] twoHeaderEvent twoHeaderRequest (by rfl)).2.2.2⟩

/-! ## When `Wrap` returns an error (C15) -/

theorem NewRequestWithContext_ok_iff (ctx : Context) (method url : String)
    (body : BodyReader) :
    (∃ r, NewRequestWithContext ctx method url body = .ok r) ↔
      (validMethod (if method = "" then "GET" else method) = true ∧
        ∃ u, URL.Parse url = .ok u) := by
  unfold NewRequestWithContext
  simp only
  by_cases hv : validMethod (if method = "" then "GET" else method) = true
  · simp only [hv, Bool.not_true, Bool.false_eq_true, if_false, true_and]
    cases hu : URL.Parse url with
    | error e => simp
    | ok u => simp
  · simp only [Bool.not_eq_true] at hv
    simp [hv]

theorem httpRequestOf_ok_iff (ctx : Context) (request : LambdaFunctionURLRequest) :
    (∃ r, httpRequestOf ctx request = .ok r) ↔
      (validMethod (if request.RequestContext.HTTP.Method = "" then "GET"
          else request.RequestContext.HTTP.Method) = true ∧
        ∃ u, URL.Parse (requestURL request) = .ok u) := by
  rw [← NewRequestWithContext_ok_iff (requestContext ctx request) _ _ (requestBody request)]
  unfold httpRequestOf
  cases NewRequestWithContext (requestContext ctx request)
      request.RequestContext.HTTP.Method (requestURL request) (requestBody request) with
  | error e => simp
  | ok r => simp

/-- C15: `Wrap` returns an error exactly when request construction fails, for
every handler; when construction succeeds the result is the response made
from the sink and a nil error.  Whether construction succeeds does not depend
on the body or on the base64 flag of the event: an event whose body is not
valid base64 is served, and the decoding error is what reading the body of
the request returns.  Construction fails, with the zero-value response, for
the domain names `[abc]`, `[1.2.3.4]`, `h:80:80` and `::1`, and succeeds for
`[::1]:8080`. -/
theorem error_iff_construction_fails (handler : Handler) (ctx : Context)
    (request : LambdaFunctionURLRequest) :
    ((Wrap handler ctx request).2 = none ↔ ∃ r, httpRequestOf ctx request = .ok r) ∧
      ((∃ e, (Wrap handler ctx request).2 = some e) ↔
        ∃ err, httpRequestOf ctx request = .error err) ∧
      (∀ r, httpRequestOf ctx request = .ok r →
        Wrap handler ctx request = (responseOf (serve handler r), none)) ∧
      (∀ (body : List Byte) (flag : Bool),
        (∃ r, httpRequestOf ctx { request with Body := body, IsBase64Encoded := flag } = .ok r)
          ↔ ∃ r, httpRequestOf ctx request = .ok r) ∧
      (httpRequestOf [] (sampleEvent "GET" (bytesOf "a?==") true)
          = .ok (sampleRequest "GET" (bytesOf "a?==") true
              (.base64Decoder (bytesOf "a?==")) 0) ∧
        (Wrap cookieHandler [] (sampleEvent "GET" (bytesOf "a?==") true)).2 = none ∧
        (Wrap cookieHandler [] (sampleEvent "GET" (bytesOf "a?==") true)).1.Body
          = bytesOf "ok" ∧
        (sampleRequest "GET" (bytesOf "a?==") true
            (.base64Decoder (bytesOf "a?==")) 0).Body.readAll []
          = ([], some GoError.corruptInput)) ∧
      ((∀ d ∈ ["[abc]", "[1.2.3.4]", "h:80:80", "::1"],
          (Wrap cookieHandler [] (sampleEventAt d)).1 = LambdaFunctionURLResponse.zero ∧
            (Wrap cookieHandler [] (sampleEventAt d)).2.isSome = true) ∧
        (Wrap cookieHandler [] (sampleEventAt "[::1]:8080")).2 = none ∧
        (Wrap cookieHandler [] (sampleEventAt "[::1]:8080")).1.Body = bytesOf "ok") := by
  refine ⟨?_, ?_, fun r hr => Wrap_ok handler ctx request r hr, ?_,
    ⟨by rfl, by decide, by decide, by decide⟩, ⟨by decide, by decide, by decide⟩⟩
  · unfold Wrap
    cases httpRequestOf ctx request with
    | error e => simp
    | ok r => simp
  · unfold Wrap
    cases httpRequestOf ctx request with
    | error e => simp
    | ok r => simp
  · intro body flag
    rw [httpRequestOf_ok_iff, httpRequestOf_ok_iff]
    rfl

/-! ## The order of enumeration (C17) -/

theorem assocGet_eq_some_iff {V : Type} (k : String) (v : V) (l : List (String × V))
    (hl : (l.map Prod.fst).Nodup) : assocGet k l = some v ↔ (k, v) ∈ l := by
  induction l with
  | nil => simp [assocGet]
  | cons e t ih =>
    rw [List.map_cons, List.nodup_cons] at hl
    by_cases he : e.1 = k
    · have hnot : ∀ x, (k, x) ∉ t := by
        intro x hx
        exact hl.1 (he ▸ List.mem_map_of_mem Prod.fst hx)
      simp only [assocGet, he, if_true, Option.some.injEq, List.mem_cons, hnot, or_false]
      constructor
      · intro h
        rw [← h, ← he]
      · intro h
        rw [← h]
    · have hne : (k, v) ≠ e := fun h => he (h ▸ rfl)
      simp only [assocGet, he, if_false, List.mem_cons, hne, false_or]
      exact ih hl.2

theorem assocGet_perm {V : Type} (k : String) (l1 l2 : List (String × V))
    (hp : l1.Perm l2) (h1 : (l1.map Prod.fst).Nodup) : assocGet k l1 = assocGet k l2 := by
  have h2 : (l2.map Prod.fst).Nodup := ((hp.map Prod.fst).nodup_iff).mp h1
  apply Option.ext
  intro v
  show assocGet k l1 = some v ↔ assocGet k l2 = some v
  rw [assocGet_eq_some_iff k v l1 h1, assocGet_eq_some_iff k v l2 h2]
  exact hp.mem_iff

theorem assocSet_of_not_mem {V : Type} (k : String) (v : V) (l : List (String × V))
    (h : k ∉ l.map Prod.fst) : assocSet k v l = l ++ [(k, v)] := by
  induction l with
  | nil => rfl
  | cons e t ih =>
    simp only [List.map_cons, List.mem_cons, not_or] at h
    have he : ¬ e.1 = k := fun h2 => h.1 h2.symm
    simp only [assocSet, he, if_false, List.cons_append]
    rw [ih h.2]

theorem foldl_collectHeader_entries (l : List (String × List String))
    (hl : (l.map Prod.fst).Nodup) (r : LambdaFunctionURLResponse)
    (hr : ∀ k ∈ l.map Prod.fst, k ∉ r.Headers.entries.map Prod.fst) :
    (l.foldl collectHeader r).Headers.entries
      = r.Headers.entries
          ++ (l.filter (fun e => e.1 ≠ "Set-Cookie")).map
              (fun e => (e.1, stringsJoin e.2 ",")) := by
  induction l generalizing r with
  | nil => simp
  | cons e t ih =>
    rw [List.map_cons, List.nodup_cons] at hl
    rw [List.foldl_cons]
    by_cases he : e.1 = "Set-Cookie"
    · have hr2 : ∀ k ∈ t.map Prod.fst, k ∉ (collectHeader r e).Headers.entries.map Prod.fst := by
        intro k hk
        unfold collectHeader
        rw [if_pos he]
        exact hr k (List.mem_cons_of_mem _ hk)
      rw [ih hl.2 _ hr2]
      unfold collectHeader
      rw [if_pos he]
      simp [List.filter_cons, he]
    · have hnew : e.1 ∉ r.Headers.entries.map Prod.fst := hr e.1 (List.mem_cons_self _ _)
      have hent : (collectHeader r e).Headers.entries
          = r.Headers.entries ++ [(e.1, stringsJoin e.2 ",")] := by
        unfold collectHeader
        rw [if_neg he]
        exact assocSet_of_not_mem _ _ _ hnew
      have hr2 : ∀ k ∈ t.map Prod.fst, k ∉ (collectHeader r e).Headers.entries.map Prod.fst := by
        intro k hk
        rw [hent, List.map_append, List.mem_append, not_or]
        refine ⟨hr k (List.mem_cons_of_mem _ hk), ?_⟩
        simp only [List.map_cons, List.map_nil, List.mem_singleton]
        intro hke
        exact hl.1 (hke ▸ hk)
      rw [ih hl.2 _ hr2, hent]
      simp [List.filter_cons, he]

theorem responseOf_entries (w : httpResponseWriter (List Byte)) :
    (responseOf w).Headers.entries
      = (w.header.entries.filter (fun e => e.1 ≠ "Set-Cookie")).map
          (fun e => (e.1, stringsJoin e.2 ",")) := by
  unfold responseOf
  rw [foldl_collectHeader_entries _ w.header.nodup]
  · rfl
  · intro k _ hk
    simp [GoMap.empty] at hk

/-- C17: two sinks with the same code and body whose header mappings have the
same entries, enumerated in two orders, give the same response: the same
value under every key of `Headers` (the entries of `Headers` are the same up
to their order), the same `Cookies`, status code and body. -/
theorem response_independent_of_order (w1 w2 : httpResponseWriter (List Byte))
    (hperm : w1.header.entries.Perm w2.header.entries)
    (hcode : w1.code = w2.code) (hbody : w1.writer = w2.writer) :
    (∀ k, (responseOf w1).Headers.get? k = (responseOf w2).Headers.get? k) ∧
      (responseOf w1).Headers.entries.Perm (responseOf w2).Headers.entries ∧
      (responseOf w1).Cookies = (responseOf w2).Cookies ∧
      (responseOf w1).StatusCode = (responseOf w2).StatusCode ∧
      (responseOf w1).Body = (responseOf w2).Body := by
  have hget : ∀ k, w1.header.get? k = w2.header.get? k :=
    fun k => assocGet_perm k _ _ hperm w1.header.nodup
  refine ⟨?_, ?_, ?_, ?_, ?_⟩
  · intro k
    rw [responseOf_headers, responseOf_headers, hget]
  · rw [responseOf_entries, responseOf_entries]
    exact (hperm.filter _).map _
  · rw [responseOf_cookies, responseOf_cookies, hget]
  · rw [(responseOf_code w1).1, (responseOf_code w2).1, hcode]
  · rw [(responseOf_code w1).2, (responseOf_code w2).2, hbody]

/-- Witness of C17: a sink with the keys `X-A`, `Set-Cookie`, `X-B` and the
same sink enumerated as `X-B`, `X-A`, `Set-Cookie`. -/
theorem response_independent_of_order_witness :
    (∀ k, (responseOf sampleSink).Headers.get? k
        = (responseOf sampleSinkReordered).Headers.get? k) ∧
      (responseOf sampleSink).Headers.entries.Perm
        (responseOf sampleSinkReordered).Headers.entries ∧
      (responseOf sampleSink).Cookies = (responseOf sampleSinkReordered).Cookies ∧
      (responseOf sampleSink).StatusCode = (responseOf sampleSinkReordered).StatusCode ∧
      (responseOf sampleSink).Body = (responseOf sampleSinkReordered).Body :=
  response_independent_of_order sampleSink sampleSinkReordered (by decide) (by rfl) (by rfl)

/-! ## Invocations of the handler (C18) -/

/-- C18: when request construction fails, `Wrap` returns before it calls the
handler: the state outside of the sink that a handler would change is left
as it was, for every handler, and the result does not depend on the handler.
When construction succeeds, the handler is called once: the outside state
has gone through `ServeHTTP` one time, and the handler was run on the sink
with no header entry, the code 200 and an empty body.  A handler that counts
its invocations counts zero exactly when `Wrap` reports a conversion failure
and one otherwise: zero for the method `GE T` and for the domain names
`[abc]`, `[1.2.3.4]`, `h:80:80` and `::1`, one for `GET` at `api.example.com`
and at `[::1]:8080`. -/
theorem handler_invoked_once_or_never (ctx : Context) (request : LambdaFunctionURLRequest) :
    (∀ err, httpRequestOf ctx request = .error err →
        ∀ (ω : Type) (handler : EffectHandler ω) (world : ω),
          WrapEffect handler ctx request world
            = ((LambdaFunctionURLResponse.zero, some { Cause := err }), world)) ∧
      (∀ err, httpRequestOf ctx request = .error err →
        ∀ handler1 handler2 : Handler,
          Wrap handler1 ctx request = Wrap handler2 ctx request) ∧
      (∀ r, httpRequestOf ctx request = .ok r →
        ∀ (ω : Type) (handler : EffectHandler ω) (world : ω),
          WrapEffect handler ctx request world
            = ((responseOf ((handler r world).1.run stringsBuilder
                  { header := GoMap.empty, code := 200, writer := [] }), none),
                (handler r world).2)) ∧
      (∀ (handler : Handler) (n : Nat),
        (WrapEffect (fun r k => (handler r, k + 1)) ctx request n).2
          = (match httpRequestOf ctx request with
            | .error _ => n
            | .ok _ => n + 1)) ∧
      (∀ (handler : Handler) (n : Nat),
        (WrapEffect (fun r k => (handler r, k + 1)) ctx request n).2
          = (if (Wrap handler ctx request).2.isSome then n else n + 1)) ∧
      (∀ (ω : Type) (handler : EffectHandler ω) (world : ω),
        (Wrap (fun r => (handler r world).1) ctx request).2.isSome = true →
          (WrapEffect handler ctx request world).2 = world) ∧
      (∀ (ω : Type) (handler : EffectHandler ω) (world : ω),
        (WrapEffect handler ctx request world).1
          = Wrap (fun r => (handler r world).1) ctx request) ∧
      (∀ handler : Handler,
        (WrapEffect (fun r (u : Unit) => (handler r, u)) ctx request ()).1
          = Wrap handler ctx request) ∧
      ((newHTTPResponseWriter ([] : List Byte)).header.entries = [] ∧
        (newHTTPResponseWriter ([] : List Byte)).code = 200 ∧
        (newHTTPResponseWriter ([] : List Byte)).writer = []) ∧
      ((WrapEffect (fun r k => (cookieHandler r, k + 1)) [] (sampleEvent "GE T" [] false) 0).2
          = 0 ∧
        (∀ d ∈ ["[abc]", "[1.2.3.4]", "h:80:80", "::1"],
          (WrapEffect (fun r k => (cookieHandler r, k + 1)) [] (sampleEventAt d) 0).2 = 0) ∧
        (WrapEffect (fun r k => (cookieHandler r, k + 1)) [] (sampleEvent "GET" [] false) 0).2
          = 1 ∧
        (WrapEffect (fun r k => (cookieHandler r, k + 1)) [] (sampleEventAt "[::1]:8080") 0).2
          = 1) := by
  refine ⟨?_, ?_, ?_, ?_, ?_, ?_, ?_, ?_, ⟨rfl, rfl, rfl⟩,
    ⟨by decide, by decide, by decide, by decide⟩⟩
  · intro err herr ω handler world
    unfold WrapEffect
    rw [herr]
  · intro err herr handler1 handler2
    unfold Wrap
    rw [herr]
  · intro r hr ω handler world
    unfold WrapEffect
    rw [hr]
    rfl
  · intro handler n
    unfold WrapEffect
    cases httpRequestOf ctx request <;> rfl
  · intro handler n
    unfold WrapEffect Wrap
    cases httpRequestOf ctx request <;> rfl
  · intro ω handler world h
    unfold Wrap at h
    unfold WrapEffect
    cases hreq : httpRequestOf ctx request with
    | error e => rfl
    | ok r =>
      rw [hreq] at h
      simp at h
  · intro ω handler world
    unfold WrapEffect Wrap serve
    cases httpRequestOf ctx request <;> rfl
  · intro handler
    unfold WrapEffect Wrap serve
    cases httpRequestOf ctx request <;> rfl

end Lambdaurl
